import Mathlib

/-
  Verification of the concurrent job-execution core of the realtime-avatar
  repository, a shallow embedding of
  src/runtime/workers/concurrent_generator.py (class ConcurrentVideoGenerator).

  Modelling conventions:
  - Python floats (wall-clock times, durations) are modelled as exact
    rationals (Rat).
  - The external engines (XTTSModel, ASRModel, DittoModel) are out-of-scope
    collaborators per the spec; each call site is modelled by an oracle value
    of type PyResult recording whether the call returned normally or raised,
    and what it returned.  Model-object construction is given a fresh token
    from a counter so that distinct instances are distinguishable.
  - The thread interleaving of the started pool is a small-step transition
    relation Step; each constructor performs one atomic action of the Python
    code (one queue operation, one locked result/stats update, one flag
    read or write).
  - A ghost event log records accepted submissions and result-store writes
    so that exactly-once properties can be stated over histories.
-/

namespace RTAvatar

/-- Outcome of one Python call: normal return or a raised exception
    carrying its message string. -/
inductive PyResult (α : Type) where
  | ok : α → PyResult α
  | exn : String → PyResult α
deriving DecidableEq, Repr

/-- Video generation job specification (dataclass VideoJob). -/
structure VideoJob where
  job_id : String
  image_path : String
  text : String
  output_path : String
  voice_sample : Option String := none
  language : String := "en"
deriving DecidableEq, Repr

/-- Video generation job result (dataclass JobResult). -/
structure JobResult where
  job_id : String
  success : Bool
  output_path : Option String
  duration : Rat
  error : Option String := none
  worker_id : Nat := 0
deriving DecidableEq, Repr

/-- An entry of the job queue: a real job, or the None sentinel that stop()
    enqueues to wake blocked workers. -/
inductive QItem where
  | job : VideoJob → QItem
  | sentinel : QItem
deriving DecidableEq, Repr

/-- Control position of one worker thread inside _worker_loop. -/
inductive WPhase where
  /-- About to evaluate the `while self.running` test. -/
  | top : WPhase
  /-- Inside `self.job_queue.get(timeout=1.0)`. -/
  | dequeue : WPhase
  /-- Holding a dequeued real job, executing _process_job on it. -/
  | run : VideoJob → WPhase
  /-- The loop has returned. -/
  | exited : WPhase
deriving DecidableEq, Repr

/-- Ghost history events: a submission accepted by the queue, and a write of
    a JobResult into the result store by a worker. -/
inductive Event where
  | accepted : VideoJob → Event
  | wrote : Nat → JobResult → Event
deriving DecidableEq, Repr

/-- The stats dictionary guarded by results_lock. -/
structure Stats where
  jobs_completed : Nat
  jobs_failed : Nat
  total_time : Rat
  worker_times : List Rat
deriving DecidableEq, Repr

/-- State of one ConcurrentVideoGenerator object.  Model handles are
    identified by allocation tokens drawn from nextToken; the ghost field
    log records the event history. -/
structure ConcurrentVideoGenerator where
  num_workers : Nat
  device : String
  max_queue_size : Int
  voice_sample_path : Option String
  job_queue : List QItem
  results : List (String × JobResult)
  tts_model : Option Nat
  asr_model : Option Nat
  ditto_models : List Nat
  running : Bool
  stats : Stats
  workers : List WPhase
  nextToken : Nat
  log : List Event
deriving DecidableEq, Repr

/-- Python dict assignment d[k] = v on an association list: replace the
    binding of k in place if present, else append a new binding. -/
def dictInsert (m : List (String × JobResult)) (k : String) (v : JobResult) :
    List (String × JobResult) :=
  match m with
  | [] => [(k, v)]
  | (k1, v1) :: rest =>
      if k1 = k then (k, v) :: rest else (k1, v1) :: dictInsert rest k v

/-- Python dict read d.get(k) on an association list. -/
def dictLookup (m : List (String × JobResult)) (k : String) : Option JobResult :=
  match m with
  | [] => none
  | (k1, v1) :: rest => if k1 = k then some v1 else dictLookup rest k

/-- Constructor __init__ of ConcurrentVideoGenerator. -/
def mkGenerator (num_workers : Nat) (device : String) (max_queue_size : Int)
    (voice_sample_path : Option String) : ConcurrentVideoGenerator :=
  { num_workers := num_workers
    device := device
    max_queue_size := max_queue_size
    voice_sample_path := voice_sample_path
    job_queue := []
    results := []
    tts_model := none
    asr_model := none
    ditto_models := []
    running := false
    stats :=
      { jobs_completed := 0
        jobs_failed := 0
        total_time := 0
        worker_times := List.replicate num_workers 0 }
    workers := []
    nextToken := 0
    log := [] }

/-- Oracle outcomes for the external calls performed by one run of the
    initialize() method: the two shared-model constructions and
    initializations, and the per-worker DittoModel constructions. -/
structure InitEnv where
  ttsCtor : PyResult Unit
  ttsInit : PyResult Unit
  asrCtor : PyResult Unit
  asrInit : PyResult Unit
  dittoCtor : Nat → PyResult Unit

/-- The shared-model part of initialize(): assigns self.tts_model and
    self.asr_model in order, stopping at the first raised exception.  The
    returned state is the object as the exception leaves it. -/
def initShared (g : ConcurrentVideoGenerator) (env : InitEnv) :
    ConcurrentVideoGenerator × Option String :=
  match env.ttsCtor with
  | .exn e => (g, some e)
  | .ok _ =>
    let g1 := { g with tts_model := some g.nextToken, nextToken := g.nextToken + 1 }
    match env.ttsInit with
    | .exn e => (g1, some e)
    | .ok _ =>
      match env.asrCtor with
      | .exn e => (g1, some e)
      | .ok _ =>
        let g2 := { g1 with asr_model := some g1.nextToken, nextToken := g1.nextToken + 1 }
        match env.asrInit with
        | .exn e => (g2, some e)
        | .ok _ => (g2, none)

/-- The per-worker loop of initialize(): `for i in range(num_workers)`
    construct a DittoModel and append it to self.ditto_models.  k counts the
    remaining iterations, i is the loop index. -/
def initDittosAux (env : InitEnv) :
    Nat → Nat → ConcurrentVideoGenerator → ConcurrentVideoGenerator × Option String
  | 0, _, g => (g, none)
  | k + 1, i, g =>
    match env.dittoCtor i with
    | .exn e => (g, some e)
    | .ok _ =>
        initDittosAux env k (i + 1)
          { g with ditto_models := g.ditto_models ++ [g.nextToken]
                   nextToken := g.nextToken + 1 }

/-- Method initialize() of ConcurrentVideoGenerator: load the shared TTS and
    ASR models, then append num_workers DittoModel instances.  The second
    component is the raised exception message, if any; the first component is
    the object state afterwards (also on the exception path, since Python
    leaves the partially mutated self behind). -/
def initModels (g : ConcurrentVideoGenerator) (env : InitEnv) :
    ConcurrentVideoGenerator × Option String :=
  let r := initShared g env
  match r.2 with
  | some e => (r.1, some e)
  | none => initDittosAux env r.1.num_workers 0 r.1

/-- Method start(): a no-op when already running, otherwise set running and
    launch one _worker_loop task per worker index. -/
def start (g : ConcurrentVideoGenerator) : ConcurrentVideoGenerator :=
  if g.running then g
  else { g with running := true, workers := List.replicate g.num_workers WPhase.top }

/-- The queue-full test of queue.Queue: a put without blocking raises Full
    exactly when maxsize is positive and the current size has reached it
    (a maxsize at most 0 means unbounded). -/
def queueFull (g : ConcurrentVideoGenerator) : Bool :=
  decide (0 < g.max_queue_size) && decide (g.max_queue_size ≤ (g.job_queue.length : Int))

/-- Method submit_job(job): non-blocking put; on queue.Full return False
    leaving the state unchanged, otherwise append at the tail and return
    True (recording the acceptance in the ghost log). -/
def submit_job (g : ConcurrentVideoGenerator) (j : VideoJob) :
    ConcurrentVideoGenerator × Bool :=
  if queueFull g then (g, false)
  else ({ g with job_queue := g.job_queue ++ [QItem.job j]
                 log := Event.accepted j :: g.log }, true)

/-- Oracle outcomes for the external calls performed by one run of
    _process_job: the shared TTS synthesize call (returning audio path, TTS
    latency and audio duration), the per-worker Ditto generate_video call
    (returning video path and generation latency), the os.path.exists test on
    the audio artifact, the os.remove outcome, and the wall-clock readings
    taken at entry and at result construction. -/
structure ProcessEnv where
  startTime : Rat
  ttsResult : PyResult (String × Rat × Rat)
  dittoResult : PyResult (String × Rat)
  audioExists : Bool
  removeResult : PyResult Unit
  endTime : Rat
deriving Repr

/-- The failed JobResult built by the except branch of _process_job. -/
def failResult (job : VideoJob) (worker_id : Nat) (env : ProcessEnv) (e : String) :
    JobResult :=
  { job_id := job.job_id
    success := false
    output_path := none
    duration := env.endTime - env.startTime
    error := some e
    worker_id := worker_id }

/-- Method _process_job(job, worker_id): run the two-stage pipeline inside a
    try block.  Stage 1 is the shared TTS call; stage 2 looks up
    self.ditto_models[worker_id] (an IndexError when absent) and runs the
    Ditto call; then the temporary audio artifact is removed when it exists.
    Any raised exception, including one from os.remove, reaches the except
    branch and yields a failed JobResult. -/
def process_job (g : ConcurrentVideoGenerator) (job : VideoJob) (worker_id : Nat)
    (env : ProcessEnv) : JobResult :=
  match env.ttsResult with
  | .exn e => failResult job worker_id env e
  | .ok (_audio_path, _tts_ms, _audio_s) =>
    match g.ditto_models[worker_id]? with
    | none => failResult job worker_id env "list index out of range"
    | some _ditto =>
      match env.dittoResult with
      | .exn e => failResult job worker_id env e
      | .ok (video_path, _gen_ms) =>
        match (if env.audioExists then env.removeResult else PyResult.ok ()) with
        | .exn e => failResult job worker_id env e
        | .ok _ =>
          { job_id := job.job_id
            success := true
            output_path := some video_path
            duration := env.endTime - env.startTime
            error := none
            worker_id := worker_id }

/-- The first exception raised inside the try block of _process_job, when
    any, following the same control flow as process_job. -/
def stageRaised (g : ConcurrentVideoGenerator) (worker_id : Nat) (env : ProcessEnv) :
    Option String :=
  match env.ttsResult with
  | .exn e => some e
  | .ok _ =>
    match g.ditto_models[worker_id]? with
    | none => some "list index out of range"
    | some _ =>
      match env.dittoResult with
      | .exn e => some e
      | .ok _ =>
        match (if env.audioExists then env.removeResult else PyResult.ok ()) with
        | .exn e => some e
        | .ok _ => none

/-- What happens to the temporary audio artifact during one _process_job
    run. -/
inductive CleanupFate where
  /-- os.remove was reached and returned normally. -/
  | removed : CleanupFate
  /-- os.remove was reached and raised; the exception escapes to the except
      branch of the job. -/
  | removeFailed : String → CleanupFate
  /-- The cleanup line ran but os.path.exists was false. -/
  | skippedMissing : CleanupFate
  /-- An earlier stage raised, so the cleanup line was never reached. -/
  | notAttempted : CleanupFate
deriving DecidableEq, Repr

/-- The cleanup outcome of one _process_job run, following the same control
    flow as process_job: the remove line sits after both stages inside the
    try block. -/
def cleanupFate (g : ConcurrentVideoGenerator) (worker_id : Nat) (env : ProcessEnv) :
    CleanupFate :=
  match env.ttsResult with
  | .exn _ => .notAttempted
  | .ok _ =>
    match g.ditto_models[worker_id]? with
    | none => .notAttempted
    | some _ =>
      match env.dittoResult with
      | .exn _ => .notAttempted
      | .ok _ =>
        if env.audioExists then
          match env.removeResult with
          | .exn e => .removeFailed e
          | .ok _ => .removed
        else .skippedMissing

/-- Replace the phase of worker w. -/
def setPhase (g : ConcurrentVideoGenerator) (w : Nat) (p : WPhase) :
    ConcurrentVideoGenerator :=
  { g with workers := g.workers.set w p }

/-- One evaluation of the `while self.running` test by worker w: proceed to
    the dequeue when running, otherwise leave the loop. -/
def worker_top (g : ConcurrentVideoGenerator) (w : Nat) : ConcurrentVideoGenerator :=
  if g.running then setPhase g w WPhase.dequeue else setPhase g w WPhase.exited

/-- One return of `self.job_queue.get(timeout=1.0)` by worker w: an empty
    queue raises queue.Empty and the loop continues; a sentinel breaks out of
    the loop; a real job moves the worker to its processing phase. -/
def worker_dequeue (g : ConcurrentVideoGenerator) (w : Nat) : ConcurrentVideoGenerator :=
  match g.job_queue with
  | [] => setPhase g w WPhase.top
  | QItem.sentinel :: rest => { setPhase g w WPhase.exited with job_queue := rest }
  | QItem.job j :: rest => { setPhase g w (WPhase.run j) with job_queue := rest }

/-- The locked update of _worker_loop after _process_job returns: store the
    result in the results dict, bump the completed or failed counter, add the
    duration to total_time and to this worker's entry of worker_times, and
    return to the top of the loop.  The write is recorded in the ghost log. -/
def recordResult (g : ConcurrentVideoGenerator) (w : Nat) (r : JobResult) :
    ConcurrentVideoGenerator :=
  { g with
      results := dictInsert g.results r.job_id r
      stats :=
        { jobs_completed := g.stats.jobs_completed + (if r.success then 1 else 0)
          jobs_failed := g.stats.jobs_failed + (if r.success then 0 else 1)
          total_time := g.stats.total_time + r.duration
          worker_times :=
            g.stats.worker_times.set w (g.stats.worker_times.getD w 0 + r.duration) }
      workers := g.workers.set w WPhase.top
      log := Event.wrote w r :: g.log }

/-- Worker w finishes processing job j with oracle env and publishes the
    result. -/
def worker_publish (g : ConcurrentVideoGenerator) (w : Nat) (j : VideoJob)
    (env : ProcessEnv) : ConcurrentVideoGenerator :=
  recordResult g w (process_job g j w env)

/-- The `self.running = False` line of stop(). -/
def stopFlag (g : ConcurrentVideoGenerator) : ConcurrentVideoGenerator :=
  { g with running := false }

/-- One sentinel put of stop(): `self.job_queue.put(None, timeout=1.0)`,
    appending a sentinel at the tail when the queue has room (on a full
    queue the put times out and the Full exception is swallowed, leaving the
    state unchanged, which the transition relation represents by taking no
    step). -/
def sentinelPut (g : ConcurrentVideoGenerator) : ConcurrentVideoGenerator :=
  { g with job_queue := g.job_queue ++ [QItem.sentinel] }

/-- Snapshot returned by get_stats(). -/
structure StatsSnapshot where
  jobs_completed : Nat
  jobs_failed : Nat
  total_time : Rat
  worker_times : List Rat
  queue_size : Nat
  avg_time : Rat
  worker_avg_times : List Rat
deriving DecidableEq, Repr

/-- Method get_stats(): copy the stats under the lock, add the current queue
    size, the average job time and the per-worker averages. -/
def get_stats (g : ConcurrentVideoGenerator) : StatsSnapshot :=
  { jobs_completed := g.stats.jobs_completed
    jobs_failed := g.stats.jobs_failed
    total_time := g.stats.total_time
    worker_times := g.stats.worker_times
    queue_size := g.job_queue.length
    avg_time :=
      if 0 < g.stats.jobs_completed then
        g.stats.total_time / (g.stats.jobs_completed : Rat)
      else 0
    worker_avg_times :=
      g.stats.worker_times.map fun wt =>
        if 0 < g.stats.jobs_completed then
          wt / (g.stats.jobs_completed : Rat) * (g.num_workers : Rat)
        else 0 }

/-- One iteration of the polling loop of get_result: first the locked lookup
    of job_id in the results dict (snap is its snapshot at this iteration),
    then the timeout test `if timeout and (time.time() - start) > timeout`.
    The float timeout is truthy exactly when nonzero.  Returns some out when
    the loop returns out at this iteration, none when it sleeps and goes
    around. -/
def pollExit (snap : Option JobResult) (elapsed : Rat) (timeout : Option Rat) :
    Option (Option JobResult) :=
  match snap with
  | some r => some (some r)
  | none =>
    match timeout with
    | none => none
    | some t => if t ≠ 0 ∧ elapsed > t then some none else none

/-- Method get_result(job_id, timeout) returns out at iteration n of its
    polling loop: snaps m is the locked store lookup at iteration m, times m
    the wall clock at the timeout test of iteration m, startT the clock at
    entry.  The loop returns at the first iteration whose pollExit fires. -/
def get_result_returns (snaps : Nat → Option JobResult) (times : Nat → Rat)
    (startT : Rat) (timeout : Option Rat) (n : Nat) (out : Option JobResult) : Prop :=
  pollExit (snaps n) (times n - startT) timeout = some out ∧
  ∀ m, m < n → pollExit (snaps m) (times m - startT) timeout = none

/-- Method get_result never returns: every iteration of the polling loop
    goes around. -/
def get_result_diverges (snaps : Nat → Option JobResult) (times : Nat → Rat)
    (startT : Rat) (timeout : Option Rat) : Prop :=
  ∀ n, pollExit (snaps n) (times n - startT) timeout = none

/-- One atomic action of some thread against a started pool: a submission,
    one of the three worker-loop transitions, the flag write of stop(), or
    one sentinel put of stop(). -/
inductive Step : ConcurrentVideoGenerator → ConcurrentVideoGenerator → Prop where
  | submit (g : ConcurrentVideoGenerator) (j : VideoJob) :
      Step g (submit_job g j).1
  | wtop (g : ConcurrentVideoGenerator) (w : Nat)
      (h : g.workers[w]? = some WPhase.top) :
      Step g (worker_top g w)
  | wdeq (g : ConcurrentVideoGenerator) (w : Nat)
      (h : g.workers[w]? = some WPhase.dequeue) :
      Step g (worker_dequeue g w)
  | wpub (g : ConcurrentVideoGenerator) (w : Nat) (j : VideoJob) (env : ProcessEnv)
      (h : g.workers[w]? = some (WPhase.run j)) :
      Step g (worker_publish g w j env)
  | stop (g : ConcurrentVideoGenerator) (h : g.running = true) :
      Step g (stopFlag g)
  | sput (g : ConcurrentVideoGenerator) (h : g.running = false)
      (h2 : queueFull g = false) :
      Step g (sentinelPut g)

/-- Interleaved executions of the pool. -/
def Reachable : ConcurrentVideoGenerator → ConcurrentVideoGenerator → Prop :=
  Relation.ReflTransGen Step

/-- A pool as start() leaves it when no job has been submitted yet: empty
    queue, empty result store, zeroed stats, every worker at the top of its
    loop, empty history. -/
def PristineStart (g : ConcurrentVideoGenerator) : Prop :=
  g.log = [] ∧ g.results = [] ∧ g.job_queue = [] ∧
  g.workers = List.replicate g.num_workers WPhase.top ∧
  g.stats.jobs_completed = 0 ∧ g.stats.jobs_failed = 0 ∧
  g.stats.total_time = 0 ∧ g.stats.worker_times = List.replicate g.num_workers 0

instance (g : ConcurrentVideoGenerator) : Decidable (PristineStart g) := by
  unfold PristineStart
  exact inferInstance
/-- Does this queue entry hold a job with the given id. -/
def jobMatches (id : String) : QItem → Bool
  | QItem.job j => decide (j.job_id = id)
  | QItem.sentinel => false

/-- Is this worker phase the execution of a job with the given id. -/
def phaseRuns (id : String) : WPhase → Bool
  | WPhase.run j => decide (j.job_id = id)
  | _ => false

/-- Is this event the accepted submission of a job with the given id. -/
def evAccepted (id : String) : Event → Bool
  | Event.accepted j => decide (j.job_id = id)
  | _ => false

/-- Is this event a result-store write for the given id. -/
def evWrote (id : String) : Event → Bool
  | Event.wrote _ r => decide (r.job_id = id)
  | _ => false

/-- Is this event the write of a successful result. -/
def evSuccess : Event → Bool
  | Event.wrote _ r => r.success
  | _ => false

/-- Is this event the write of a failed result. -/
def evFailed : Event → Bool
  | Event.wrote _ r => !r.success
  | _ => false

/-- The duration carried by this event (0 for a non-write event). -/
def evDuration : Event → Rat
  | Event.wrote _ r => r.duration
  | _ => 0

/-- Number of accepted-submission events for a given job id. -/
def acceptedCount (log : List Event) (id : String) : Nat :=
  log.countP (evAccepted id)

/-- Number of result-store writes for a given job id. -/
def wroteCount (log : List Event) (id : String) : Nat :=
  log.countP (evWrote id)

/-- Number of queue entries holding a job with the given id. -/
def queueCount (g : ConcurrentVideoGenerator) (id : String) : Nat :=
  g.job_queue.countP (jobMatches id)

/-- Number of workers currently executing a job with the given id. -/
def runCount (g : ConcurrentVideoGenerator) (id : String) : Nat :=
  g.workers.countP (phaseRuns id)

/-- Number of successful results written so far. -/
def successCount (log : List Event) : Nat :=
  log.countP evSuccess

/-- Number of failed results written so far. -/
def failCount (log : List Event) : Nat :=
  log.countP evFailed

/-- Sum of the durations of all results written so far. -/
def durSum (log : List Event) : Rat :=
  (log.map evDuration).sum

/-- All worker loops have returned; this is the condition under which the
    executor shutdown inside stop() unblocks, so stop() returns exactly in
    such a state. -/
def allExited (g : ConcurrentVideoGenerator) : Prop :=
  ∀ w, w < g.workers.length → g.workers[w]? = some WPhase.exited

instance (g : ConcurrentVideoGenerator) : Decidable (allExited g) := by
  unfold allExited
  exact inferInstance

/-- The conservation invariant of the started pool: result-store keys stay
    distinct, the worker and stats arrays keep their size, the stats mirror
    the write history, and every job id is conserved across queue, in-flight
    slots, and write history. -/
def ExecInv (g : ConcurrentVideoGenerator) : Prop :=
  (g.results.map Prod.fst).Nodup ∧
  g.workers.length = g.num_workers ∧
  g.stats.worker_times.length = g.num_workers ∧
  g.stats.jobs_completed = successCount g.log ∧
  g.stats.jobs_failed = failCount g.log ∧
  g.stats.total_time = durSum g.log ∧
  g.stats.worker_times.sum = durSum g.log ∧
  ∀ id, queueCount g id + runCount g id + wroteCount g.log id = acceptedCount g.log id

/-- A sample job used for concrete evaluations. -/
def jobA : VideoJob :=
  { job_id := "job-a", image_path := "face.png", text := "hello", output_path := "a.mp4" }

/-- A second sample job. -/
def jobB : VideoJob :=
  { job_id := "job-b", image_path := "face.png", text := "world", output_path := "b.mp4" }

/-- A third sample job. -/
def jobC : VideoJob :=
  { job_id := "job-c", image_path := "face.png", text := "again", output_path := "c.mp4" }

/-- An initialization run in which every external call returns normally. -/
def envInitOK : InitEnv :=
  { ttsCtor := PyResult.ok ()
    ttsInit := PyResult.ok ()
    asrCtor := PyResult.ok ()
    asrInit := PyResult.ok ()
    dittoCtor := fun _ => PyResult.ok () }

/-- An initialization run in which the shared ASR model raises during its
    own initialize() call. -/
def envInitAsrFail : InitEnv :=
  { ttsCtor := PyResult.ok ()
    ttsInit := PyResult.ok ()
    asrCtor := PyResult.ok ()
    asrInit := PyResult.exn "CUDA out of memory"
    dittoCtor := fun _ => PyResult.ok () }

/-- A job run in which both pipeline stages and the cleanup succeed. -/
def procOK : ProcessEnv :=
  { startTime := 0
    ttsResult := PyResult.ok ("/tmp/audio_job-a.wav", 100, 2)
    dittoResult := PyResult.ok ("a.mp4", 900)
    audioExists := true
    removeResult := PyResult.ok ()
    endTime := 3 }

/-- A job run in which both pipeline stages succeed but os.remove raises. -/
def procRemoveFail : ProcessEnv :=
  { startTime := 0
    ttsResult := PyResult.ok ("/tmp/audio_job-a.wav", 100, 2)
    dittoResult := PyResult.ok ("a.mp4", 900)
    audioExists := true
    removeResult := PyResult.exn "Permission denied"
    endTime := 3 }

/-- A job run in which the animation stage raises. -/
def procDittoFail : ProcessEnv :=
  { startTime := 0
    ttsResult := PyResult.ok ("/tmp/audio_job-a.wav", 100, 2)
    dittoResult := PyResult.exn "CUDA error: device-side assert"
    audioExists := true
    removeResult := PyResult.ok ()
    endTime := 3 }

/-- A single-worker pool, initialized and started, for concrete traces. -/
def poolA : ConcurrentVideoGenerator :=
  start (initModels (mkGenerator 1 "cuda" 10 none) envInitOK).1

/-- poolA after accepting jobA. -/
def poolB : ConcurrentVideoGenerator := (submit_job poolA jobA).1

/-- poolB after worker 0 observes the running flag. -/
def poolC : ConcurrentVideoGenerator := worker_top poolB 0

/-- poolC after worker 0 dequeues jobA. -/
def poolD : ConcurrentVideoGenerator := worker_dequeue poolC 0

/-- poolD after worker 0 publishes the result of jobA under procOK. -/
def poolE : ConcurrentVideoGenerator := worker_publish poolD 0 jobA procOK

/-- A single-worker pool in which worker 0 is executing jobA while jobB is
    still queued, as at the moment stop() is called. -/
def poolStop : ConcurrentVideoGenerator :=
  { mkGenerator 1 "cuda" 10 none with
      running := true
      workers := [WPhase.run jobA]
      job_queue := [QItem.job jobB]
      log := [Event.accepted jobB, Event.accepted jobA] }

/-- A single-worker pool in which worker 0 sits inside the dequeue wait
    while jobB is queued, as at the moment stop() is called; this is the
    racy configuration. -/
def poolRace : ConcurrentVideoGenerator :=
  { mkGenerator 1 "cuda" 10 none with
      running := true
      workers := [WPhase.dequeue]
      job_queue := [QItem.job jobB]
      log := [Event.accepted jobB] }

/-- Supporting lemmas about lists and the dict model. -/

theorem getElem?_some_lt {α : Type} {l : List α} {i : Nat} {a : α}
    (h : l[i]? = some a) : i < l.length := by
  by_contra hlt
  rw [List.getElem?_eq_none (Nat.le_of_not_lt hlt)] at h
  exact Option.noConfusion h

theorem getD_of_getElem? {α : Type} {l : List α} {i : Nat} {a : α} (d : α)
    (h : l[i]? = some a) : l.getD i d = a := by
  simp [List.getD_eq_getElem?_getD, h]

theorem countP_set_add {α : Type} (p : α → Bool) :
    ∀ (l : List α) (i : Nat) (a b : α), l[i]? = some b →
      (l.set i a).countP p + (if p b then 1 else 0) =
        l.countP p + (if p a then 1 else 0) := by
  intro l
  induction l with
  | nil => intro i a b h; simp at h
  | cons x xs ih =>
    intro i a b h
    cases i with
    | zero =>
      simp at h
      subst h
      simp [List.countP_cons]
      omega
    | succ n =>
      simp at h
      have := ih n a b h
      simp [List.set, List.countP_cons]
      omega

theorem sum_set_add :
    ∀ (l : List Rat) (i : Nat) (b d : Rat), l[i]? = some b →
      (l.set i (b + d)).sum = l.sum + d := by
  intro l
  induction l with
  | nil => intro i b d h; simp at h
  | cons x xs ih =>
    intro i b d h
    cases i with
    | zero =>
      simp at h
      subst h
      simp [List.set]
      ring
    | succ n =>
      simp at h
      have := ih n b d h
      simp [List.set, this]
      ring

theorem dictLookup_insert_self (m : List (String × JobResult)) (k : String)
    (v : JobResult) : dictLookup (dictInsert m k v) k = some v := by
  induction m with
  | nil => simp [dictInsert, dictLookup]
  | cons hd tl ih =>
    obtain ⟨k1, v1⟩ := hd
    by_cases hk : k1 = k
    · simp [dictInsert, dictLookup, hk]
    · simp [dictInsert, dictLookup, hk, ih]

theorem dictLookup_insert_other (m : List (String × JobResult)) (k k2 : String)
    (v : JobResult) (hne : k2 ≠ k) :
    dictLookup (dictInsert m k v) k2 = dictLookup m k2 := by
  induction m with
  | nil => simp [dictInsert, dictLookup, Ne.symm hne]
  | cons hd tl ih =>
    obtain ⟨k1, v1⟩ := hd
    by_cases hk : k1 = k
    · subst hk
      simp [dictInsert, dictLookup, Ne.symm hne]
    · simp [dictInsert, dictLookup, hk, ih]

theorem dictInsert_keys_subset (m : List (String × JobResult)) (k : String)
    (v : JobResult) :
    ∀ x ∈ (dictInsert m k v).map Prod.fst, x ∈ m.map Prod.fst ∨ x = k := by
  induction m with
  | nil => simp [dictInsert]
  | cons hd tl ih =>
    obtain ⟨k1, v1⟩ := hd
    by_cases hk : k1 = k
    · subst hk
      intro x hx
      simp [dictInsert] at hx
      rcases hx with h | h
      · right; exact h
      · left; simp [h]
    · intro x hx
      simp [dictInsert, hk] at hx
      rcases hx with h | h
      · left; simp [h]
      · rcases ih x (by simpa using h) with h2 | h2
        · left; simp at h2 ⊢; right; exact h2
        · right; exact h2

theorem dictInsert_keys_nodup (m : List (String × JobResult)) (k : String)
    (v : JobResult) (h : (m.map Prod.fst).Nodup) :
    ((dictInsert m k v).map Prod.fst).Nodup := by
  induction m with
  | nil => simp [dictInsert]
  | cons hd tl ih =>
    obtain ⟨k1, v1⟩ := hd
    rw [List.map_cons, List.nodup_cons] at h
    obtain ⟨hnotin, htl⟩ := h
    by_cases hk : k1 = k
    · subst hk
      have hins : dictInsert ((k1, v1) :: tl) k1 v = (k1, v) :: tl := by
        simp [dictInsert]
      rw [hins, List.map_cons, List.nodup_cons]
      exact ⟨hnotin, htl⟩
    · have hins : dictInsert ((k1, v1) :: tl) k v = (k1, v1) :: dictInsert tl k v := by
        simp [dictInsert, hk]
      rw [hins, List.map_cons, List.nodup_cons]
      refine ⟨?_, ih htl⟩
      intro hmem
      rcases dictInsert_keys_subset tl k v k1 hmem with h2 | h2
      · exact hnotin h2
      · exact hk h2

theorem process_job_cases (g : ConcurrentVideoGenerator) (j : VideoJob) (w : Nat)
    (env : ProcessEnv) :
    (∃ e, stageRaised g w env = some e ∧ process_job g j w env = failResult j w env e) ∨
    (stageRaised g w env = none ∧ ∃ vp,
      process_job g j w env =
        { job_id := j.job_id
          success := true
          output_path := some vp
          duration := env.endTime - env.startTime
          error := none
          worker_id := w }) := by
  unfold process_job stageRaised
  cases env.ttsResult with
  | exn e => exact Or.inl ⟨e, rfl, rfl⟩
  | ok a =>
    obtain ⟨ap, tms, aus⟩ := a
    cases hd : g.ditto_models[w]? with
    | none => exact Or.inl ⟨"list index out of range", by simp [hd], by simp [hd]⟩
    | some d =>
      cases env.dittoResult with
      | exn e => exact Or.inl ⟨e, by simp [hd], by simp [hd]⟩
      | ok b =>
        obtain ⟨vp, gm⟩ := b
        by_cases hae : env.audioExists
        · cases hr : env.removeResult with
          | exn e => exact Or.inl ⟨e, by simp [hd, hae, hr], by simp [hd, hae, hr]⟩
          | ok u => exact Or.inr ⟨by simp [hd, hae, hr], vp, by simp [hd, hae, hr]⟩
        · exact Or.inr ⟨by simp [hd, hae], vp, by simp [hd, hae]⟩

theorem process_job_job_id (g : ConcurrentVideoGenerator) (j : VideoJob) (w : Nat)
    (env : ProcessEnv) : (process_job g j w env).job_id = j.job_id := by
  rcases process_job_cases g j w env with ⟨e, _, hpe⟩ | ⟨_, vp, hpe⟩ <;>
    simp [hpe, failResult]

theorem process_job_worker_id (g : ConcurrentVideoGenerator) (j : VideoJob) (w : Nat)
    (env : ProcessEnv) : (process_job g j w env).worker_id = w := by
  rcases process_job_cases g j w env with ⟨e, _, hpe⟩ | ⟨_, vp, hpe⟩ <;>
    simp [hpe, failResult]

theorem process_job_duration (g : ConcurrentVideoGenerator) (j : VideoJob) (w : Nat)
    (env : ProcessEnv) :
    (process_job g j w env).duration = env.endTime - env.startTime := by
  rcases process_job_cases g j w env with ⟨e, _, hpe⟩ | ⟨_, vp, hpe⟩ <;>
    simp [hpe, failResult]

theorem process_job_output_iff (g : ConcurrentVideoGenerator) (j : VideoJob) (w : Nat)
    (env : ProcessEnv) :
    (process_job g j w env).output_path.isSome = (process_job g j w env).success := by
  rcases process_job_cases g j w env with ⟨e, _, hpe⟩ | ⟨_, vp, hpe⟩ <;>
    simp [hpe, failResult]

theorem process_job_error_iff (g : ConcurrentVideoGenerator) (j : VideoJob) (w : Nat)
    (env : ProcessEnv) :
    (process_job g j w env).error.isSome = !(process_job g j w env).success := by
  rcases process_job_cases g j w env with ⟨e, _, hpe⟩ | ⟨_, vp, hpe⟩ <;>
    simp [hpe, failResult]

theorem pristine_execInv (g : ConcurrentVideoGenerator) (h : PristineStart g) :
    ExecInv g := by
  obtain ⟨hlog, hres, hq, hwk, hc, hf, ht, hwt⟩ := h
  refine ⟨by simp [hres], by simp [hwk], by simp [hwt], ?_, ?_, ?_, ?_, ?_⟩
  · simp [hc, hlog, successCount]
  · simp [hf, hlog, failCount]
  · simp [ht, hlog, durSum]
  · simp [hwt, hlog, durSum, List.sum_replicate]
  · intro id
    have hrc : runCount g id = 0 := by
      rw [runCount, List.countP_eq_zero]
      intro p hp
      rw [hwk] at hp
      rw [List.eq_of_mem_replicate hp]
      simp [phaseRuns]
    simp [queueCount, wroteCount, acceptedCount, hq, hlog, hrc]

theorem execInv_setPhase (g : ConcurrentVideoGenerator) (w : Nat) (p p0 : WPhase)
    (h : g.workers[w]? = some p0)
    (hp : ∀ id, phaseRuns id p = phaseRuns id p0)
    (hinv : ExecInv g) : ExecInv (setPhase g w p) := by
  obtain ⟨hnd, hwl, hwt, hc, hf, htt, hws, hcons⟩ := hinv
  refine ⟨hnd, by simpa [setPhase] using hwl, hwt, hc, hf, htt, hws, ?_⟩
  intro id
  have hold := hcons id
  have hcnt := countP_set_add (phaseRuns id) g.workers w p p0 h
  rw [hp id] at hcnt
  simp only [setPhase, queueCount, runCount, wroteCount, acceptedCount] at hold ⊢
  omega

theorem step_execInv (g g2 : ConcurrentVideoGenerator) (hinv : ExecInv g)
    (hstep : Step g g2) : ExecInv g2 := by
  obtain ⟨hnd, hwl, hwt, hc, hf, htt, hws, hcons⟩ := hinv
  cases hstep with
  | submit j =>
    by_cases hfull : queueFull g = true
    · have he : (submit_job g j).1 = g := by simp [submit_job, hfull]
      rw [he]
      exact ⟨hnd, hwl, hwt, hc, hf, htt, hws, hcons⟩
    · rw [Bool.not_eq_true] at hfull
      have he : (submit_job g j).1 =
          { g with job_queue := g.job_queue ++ [QItem.job j]
                   log := Event.accepted j :: g.log } := by
        simp [submit_job, hfull]
      rw [he]
      refine ⟨hnd, hwl, hwt, ?_, ?_, ?_, ?_, ?_⟩
      · simpa [successCount, List.countP_cons, evSuccess] using hc
      · simpa [failCount, List.countP_cons, evFailed] using hf
      · simpa [durSum, evDuration] using htt
      · simpa [durSum, evDuration] using hws
      · intro id
        have hold := hcons id
        have hq2 : List.countP (jobMatches id) (g.job_queue ++ [QItem.job j]) =
            List.countP (jobMatches id) g.job_queue +
              (if j.job_id = id then 1 else 0) := by
          simp [List.countP_append, List.countP_cons, jobMatches]
        have ha2 : List.countP (evAccepted id) (Event.accepted j :: g.log) =
            List.countP (evAccepted id) g.log + (if j.job_id = id then 1 else 0) := by
          simp [List.countP_cons, evAccepted]
        have hw2 : List.countP (evWrote id) (Event.accepted j :: g.log) =
            List.countP (evWrote id) g.log := by
          simp [List.countP_cons, evWrote]
        simp only [queueCount, runCount, wroteCount, acceptedCount] at hold ⊢
        rw [hq2, ha2, hw2]
        omega
  | wtop w h =>
    cases hrun : g.running with
    | true =>
      have he : worker_top g w = setPhase g w WPhase.dequeue := by
        simp [worker_top, hrun]
      rw [he]
      exact execInv_setPhase g w WPhase.dequeue WPhase.top h
        (fun id => by simp [phaseRuns]) ⟨hnd, hwl, hwt, hc, hf, htt, hws, hcons⟩
    | false =>
      have he : worker_top g w = setPhase g w WPhase.exited := by
        simp [worker_top, hrun]
      rw [he]
      exact execInv_setPhase g w WPhase.exited WPhase.top h
        (fun id => by simp [phaseRuns]) ⟨hnd, hwl, hwt, hc, hf, htt, hws, hcons⟩
  | wdeq w h =>
    cases hq : g.job_queue with
    | nil =>
      have he : worker_dequeue g w = setPhase g w WPhase.top := by
        simp [worker_dequeue, hq]
      rw [he]
      exact execInv_setPhase g w WPhase.top WPhase.dequeue h
        (fun id => by simp [phaseRuns]) ⟨hnd, hwl, hwt, hc, hf, htt, hws, hcons⟩
    | cons q rest =>
      cases q with
      | sentinel =>
        have he : worker_dequeue g w =
            { g with workers := g.workers.set w WPhase.exited
                     job_queue := rest } := by
          simp [worker_dequeue, hq, setPhase]
        rw [he]
        refine ⟨hnd, by simpa using hwl, hwt, hc, hf, htt, hws, ?_⟩
        intro id
        have hold := hcons id
        have hq2 : List.countP (jobMatches id) g.job_queue =
            List.countP (jobMatches id) rest := by
          rw [hq]; simp [List.countP_cons, jobMatches]
        have hrun2 : List.countP (phaseRuns id) (g.workers.set w WPhase.exited) =
            List.countP (phaseRuns id) g.workers := by
          have hcnt := countP_set_add (phaseRuns id) g.workers w WPhase.exited
            WPhase.dequeue h
          simp [phaseRuns] at hcnt
          omega
        simp only [queueCount, runCount, wroteCount, acceptedCount] at hold ⊢
        rw [hrun2, ← hq2]
        exact hold
      | job j =>
        have he : worker_dequeue g w =
            { g with workers := g.workers.set w (WPhase.run j)
                     job_queue := rest } := by
          simp [worker_dequeue, hq, setPhase]
        rw [he]
        refine ⟨hnd, by simpa using hwl, hwt, hc, hf, htt, hws, ?_⟩
        intro id
        have hold := hcons id
        have hq2 : List.countP (jobMatches id) g.job_queue =
            List.countP (jobMatches id) rest + (if j.job_id = id then 1 else 0) := by
          rw [hq]; simp [List.countP_cons, jobMatches]
        have hrun2 : List.countP (phaseRuns id) (g.workers.set w (WPhase.run j)) =
            List.countP (phaseRuns id) g.workers + (if j.job_id = id then 1 else 0) := by
          have hcnt := countP_set_add (phaseRuns id) g.workers w (WPhase.run j)
            WPhase.dequeue h
          simp [phaseRuns] at hcnt
          omega
        simp only [queueCount, runCount, wroteCount, acceptedCount] at hold ⊢
        rw [hq2] at hold
        rw [hrun2]
        omega
  | wpub w j env h =>
    have hwlt : w < g.workers.length := getElem?_some_lt h
    have hwtlt : w < g.stats.worker_times.length := by
      rw [hwt, ← hwl]; exact hwlt
    have hwtb : g.stats.worker_times[w]? = some g.stats.worker_times[w] :=
      List.getElem?_eq_getElem hwtlt
    have hgetD : g.stats.worker_times.getD w 0 = g.stats.worker_times[w] :=
      getD_of_getElem? 0 hwtb
    have hjid := process_job_job_id g j w env
    show ExecInv (recordResult g w (process_job g j w env))
    generalize hr : process_job g j w env = r
    rw [hr] at hjid
    refine ⟨?_, ?_, ?_, ?_, ?_, ?_, ?_, ?_⟩
    · exact dictInsert_keys_nodup _ _ _ hnd
    · simpa [recordResult] using hwl
    · simpa [recordResult] using hwt
    · have hsc : successCount (Event.wrote w r :: g.log) =
          successCount g.log + (if r.success then 1 else 0) := by
        simp [successCount, List.countP_cons, evSuccess]
      show g.stats.jobs_completed + _ = successCount (Event.wrote w r :: g.log)
      rw [hsc, hc]
    · have hfc : failCount (Event.wrote w r :: g.log) =
          failCount g.log + (if r.success then 0 else 1) := by
        by_cases hs : r.success = true
        · simp [failCount, List.countP_cons, evFailed, hs]
        · rw [Bool.not_eq_true] at hs
          simp [failCount, List.countP_cons, evFailed, hs]
      show g.stats.jobs_failed + _ = failCount (Event.wrote w r :: g.log)
      rw [hfc, hf]
    · have hd : durSum (Event.wrote w r :: g.log) = r.duration + durSum g.log := by
        simp [durSum, evDuration]
      show g.stats.total_time + r.duration = durSum (Event.wrote w r :: g.log)
      rw [hd, htt]
      ring
    · have hd : durSum (Event.wrote w r :: g.log) = r.duration + durSum g.log := by
        simp [durSum, evDuration]
      show (g.stats.worker_times.set w
        (g.stats.worker_times.getD w 0 + r.duration)).sum =
          durSum (Event.wrote w r :: g.log)
      rw [hgetD, sum_set_add _ _ _ _ hwtb, hd, hws]
      ring
    · intro id
      have hold := hcons id
      have hw2 : List.countP (evWrote id) (Event.wrote w r :: g.log) =
          List.countP (evWrote id) g.log + (if j.job_id = id then 1 else 0) := by
        simp [List.countP_cons, evWrote, hjid]
      have ha2 : List.countP (evAccepted id) (Event.wrote w r :: g.log) =
          List.countP (evAccepted id) g.log := by
        simp [List.countP_cons, evAccepted]
      have hrun2 : List.countP (phaseRuns id) (g.workers.set w WPhase.top) +
          (if j.job_id = id then 1 else 0) = List.countP (phaseRuns id) g.workers := by
        have hcnt := countP_set_add (phaseRuns id) g.workers w WPhase.top
          (WPhase.run j) h
        simp [phaseRuns] at hcnt
        omega
      simp only [recordResult, queueCount, runCount, wroteCount, acceptedCount]
        at hold ⊢
      rw [hw2, ha2]
      omega
  | stop h =>
    exact ⟨hnd, hwl, hwt, hc, hf, htt, hws, hcons⟩
  | sput h h2 =>
    refine ⟨hnd, hwl, hwt, hc, hf, htt, hws, ?_⟩
    intro id
    have hold := hcons id
    have hq2 : List.countP (jobMatches id) (g.job_queue ++ [QItem.sentinel]) =
        List.countP (jobMatches id) g.job_queue := by
      simp [List.countP_append, List.countP_cons, jobMatches]
    simp only [sentinelPut, queueCount, runCount, wroteCount, acceptedCount]
      at hold ⊢
    rw [hq2]
    exact hold

theorem reachable_execInv (g g2 : ConcurrentVideoGenerator) (h0 : ExecInv g)
    (h : Reachable g g2) : ExecInv g2 := by
  induction h with
  | refl => exact h0
  | tail hab hbc ih => exact step_execInv _ _ ih hbc

theorem getElem?_set_self {α : Type} :
    ∀ (l : List α) (i : Nat) (a : α), i < l.length → (l.set i a)[i]? = some a := by
  intro l
  induction l with
  | nil => intro i a h; simp at h
  | cons x xs ih =>
    intro i a h
    cases i with
    | zero => simp [List.set]
    | succ n => simpa [List.set] using ih n a (by simpa using h)

theorem getElem?_set_ne {α : Type} :
    ∀ (l : List α) (i j : Nat) (a : α), i ≠ j → (l.set i a)[j]? = l[j]? := by
  intro l
  induction l with
  | nil => intro i j a hne; simp [List.set]
  | cons x xs ih =>
    intro i j a hne
    cases i with
    | zero =>
      cases j with
      | zero => exact absurd rfl hne
      | succ m => simp [List.set]
    | succ n =>
      cases j with
      | zero => simp [List.set]
      | succ m => simpa [List.set] using ih n m a (fun hc => hne (by rw [hc]))

/-- The shutdown invariant, relative to the state s0 in which stop() flipped
    the running flag while no worker sat inside the dequeue wait: the flag
    stays down, no worker ever re-enters the dequeue wait, a worker still
    executing runs the same job it ran at s0, and every result written since
    s0 belongs to a job that was in flight at s0 (with per-worker
    accounting of which in-flight jobs have been published). -/
def StopInv (s0 t : ConcurrentVideoGenerator) : Prop :=
  t.running = false ∧
  (∀ (w : Nat) (p : WPhase), t.workers[w]? = some p → p ≠ WPhase.dequeue) ∧
  (∀ (w : Nat) (jj : VideoJob), t.workers[w]? = some (WPhase.run jj) →
    s0.workers[w]? = some (WPhase.run jj)) ∧
  ∃ dlog, t.log = dlog ++ s0.log ∧
    (∀ e ∈ dlog, ∀ (w2 : Nat) (r : JobResult), e = Event.wrote w2 r →
      ∃ jj, s0.workers[w2]? = some (WPhase.run jj) ∧ r.job_id = jj.job_id) ∧
    (∀ (w : Nat) (jj : VideoJob), s0.workers[w]? = some (WPhase.run jj) →
      t.workers[w]? = some (WPhase.run jj) ∨
      ∃ r, Event.wrote w r ∈ dlog ∧ r.job_id = jj.job_id)

theorem stopInv_base (s0 : ConcurrentVideoGenerator)
    (hnodeq : ∀ (w : Nat) (p : WPhase), s0.workers[w]? = some p → p ≠ WPhase.dequeue) :
    StopInv s0 (stopFlag s0) := by
  refine ⟨rfl, hnodeq, fun w jj hw => hw, [], by simp [stopFlag], ?_, ?_⟩
  · intro e he; simp at he
  · intro w jj hw; exact Or.inl hw

theorem stopInv_step (s0 t t2 : ConcurrentVideoGenerator) (hinv : StopInv s0 t)
    (hstep : Step t t2) : StopInv s0 t2 := by
  obtain ⟨hrun, hnodeq, hrunpre, dlog, hlog, hdw, hdper⟩ := hinv
  cases hstep with
  | submit j =>
    by_cases hfull : queueFull t = true
    · have he : (submit_job t j).1 = t := by simp [submit_job, hfull]
      rw [he]
      exact ⟨hrun, hnodeq, hrunpre, dlog, hlog, hdw, hdper⟩
    · rw [Bool.not_eq_true] at hfull
      have he : (submit_job t j).1 =
          { t with job_queue := t.job_queue ++ [QItem.job j]
                   log := Event.accepted j :: t.log } := by
        simp [submit_job, hfull]
      rw [he]
      refine ⟨hrun, hnodeq, hrunpre, Event.accepted j :: dlog, by simp [hlog], ?_, ?_⟩
      · intro e he2 w2 r hew
        rcases List.mem_cons.mp he2 with he3 | he3
        · rw [he3] at hew; exact Event.noConfusion hew
        · exact hdw e he3 w2 r hew
      · intro w jj hw
        rcases hdper w jj hw with h1 | ⟨r, hr1, hr2⟩
        · exact Or.inl h1
        · exact Or.inr ⟨r, List.mem_cons_of_mem _ hr1, hr2⟩
  | wtop w h =>
    have he : worker_top t w = setPhase t w WPhase.exited := by
      simp [worker_top, hrun]
    rw [he]
    have hwl := getElem?_some_lt h
    refine ⟨hrun, ?_, ?_, dlog, hlog, hdw, ?_⟩
    · intro w2 p hp
      by_cases hw2 : w = w2
      · subst hw2
        rw [setPhase, getElem?_set_self t.workers w WPhase.exited hwl] at hp
        cases hp
        intro hc
        exact WPhase.noConfusion hc
      · rw [setPhase, getElem?_set_ne t.workers w w2 WPhase.exited hw2] at hp
        exact hnodeq w2 p hp
    · intro w2 jj hp
      by_cases hw2 : w = w2
      · subst hw2
        rw [setPhase, getElem?_set_self t.workers w WPhase.exited hwl] at hp
        exact Option.noConfusion hp fun hc => WPhase.noConfusion hc
      · rw [setPhase, getElem?_set_ne t.workers w w2 WPhase.exited hw2] at hp
        exact hrunpre w2 jj hp
    · intro w2 jj hw2s
      rcases hdper w2 jj hw2s with h1 | h1
      · by_cases hw2 : w = w2
        · subst hw2
          rw [h] at h1
          cases h1
        · exact Or.inl (by rw [setPhase, getElem?_set_ne t.workers w w2 _ hw2]; exact h1)
      · exact Or.inr h1
  | wdeq w h =>
    exact absurd rfl (hnodeq w WPhase.dequeue h)
  | wpub w j env h =>
    have hwl := getElem?_some_lt h
    have hs0 : s0.workers[w]? = some (WPhase.run j) := hrunpre w j h
    have hjid := process_job_job_id t j w env
    show StopInv s0 (recordResult t w (process_job t j w env))
    generalize hr : process_job t j w env = r
    rw [hr] at hjid
    refine ⟨hrun, ?_, ?_, Event.wrote w r :: dlog, by simp [recordResult, hlog], ?_, ?_⟩
    · intro w2 p hp
      by_cases hw2 : w = w2
      · subst hw2
        rw [show (recordResult t w r).workers = t.workers.set w WPhase.top from rfl,
          getElem?_set_self t.workers w WPhase.top hwl] at hp
        cases hp
        intro hc
        exact WPhase.noConfusion hc
      · rw [show (recordResult t w r).workers = t.workers.set w WPhase.top from rfl,
          getElem?_set_ne t.workers w w2 WPhase.top hw2] at hp
        exact hnodeq w2 p hp
    · intro w2 jj hp
      by_cases hw2 : w = w2
      · subst hw2
        rw [show (recordResult t w r).workers = t.workers.set w WPhase.top from rfl,
          getElem?_set_self t.workers w WPhase.top hwl] at hp
        exact Option.noConfusion hp fun hc => WPhase.noConfusion hc
      · rw [show (recordResult t w r).workers = t.workers.set w WPhase.top from rfl,
          getElem?_set_ne t.workers w w2 WPhase.top hw2] at hp
        exact hrunpre w2 jj hp
    · intro e he2 w2 r2 hew
      rcases List.mem_cons.mp he2 with he3 | he3
      · rw [he3] at hew
        cases hew
        exact ⟨j, hs0, hjid⟩
      · exact hdw e he3 w2 r2 hew
    · intro w2 jj hw2s
      by_cases hw2 : w = w2
      · subst hw2
        have : jj = j := by
          rw [hs0] at hw2s
          cases hw2s
          rfl
        subst this
        exact Or.inr ⟨r, List.mem_cons_self _ _, hjid⟩
      · rcases hdper w2 jj hw2s with h1 | ⟨r2, hr1, hr2⟩
        · exact Or.inl (by
            rw [show (recordResult t w r).workers = t.workers.set w WPhase.top from rfl,
              getElem?_set_ne t.workers w w2 WPhase.top hw2]
            exact h1)
        · exact Or.inr ⟨r2, List.mem_cons_of_mem _ hr1, hr2⟩
  | stop h =>
    rw [hrun] at h
    exact Bool.noConfusion h
  | sput h h2 =>
    exact ⟨hrun, hnodeq, hrunpre, dlog, by simp [sentinelPut, hlog], hdw, hdper⟩

theorem stopInv_reachable (s0 t t2 : ConcurrentVideoGenerator)
    (h0 : StopInv s0 t) (h : Reachable t t2) : StopInv s0 t2 := by
  induction h with
  | refl => exact h0
  | tail hab hbc ih => exact stopInv_step _ _ _ ih hbc

theorem initDittosAux_ok (env : InitEnv) :
    ∀ (k i : Nat) (g : ConcurrentVideoGenerator),
      (initDittosAux env k i g).2 = none →
      (initDittosAux env k i g).1.ditto_models.length = g.ditto_models.length + k ∧
      (initDittosAux env k i g).1.nextToken = g.nextToken + k ∧
      (initDittosAux env k i g).1.num_workers = g.num_workers ∧
      (initDittosAux env k i g).1.tts_model = g.tts_model ∧
      (initDittosAux env k i g).1.asr_model = g.asr_model := by
  intro k
  induction k with
  | zero =>
    intro i g h
    simp [initDittosAux]
  | succ k ih =>
    intro i g h
    cases hdc : env.dittoCtor i with
    | exn e => simp [initDittosAux, hdc] at h
    | ok u =>
      have hrec := ih (i + 1)
        { g with ditto_models := g.ditto_models ++ [g.nextToken]
                 nextToken := g.nextToken + 1 }
      simp only [initDittosAux, hdc] at h ⊢
      have := hrec h
      simp at this
      obtain ⟨h1, h2, h3, h4, h5⟩ := this
      refine ⟨by omega, by omega, h3, h4, h5⟩

theorem initDittosAux_fail (env : InitEnv) :
    ∀ (k i j : Nat) (g : ConcurrentVideoGenerator) (e : String),
      j < k → env.dittoCtor (i + j) = PyResult.exn e →
      (∀ m, m < j → env.dittoCtor (i + m) = PyResult.ok ()) →
      (initDittosAux env k i g).2 = some e := by
  intro k
  induction k with
  | zero => intro i j g e hj; exact absurd hj (Nat.not_lt_zero j)
  | succ k ih =>
    intro i j g e hj hexn hok
    cases j with
    | zero =>
      rw [Nat.add_zero] at hexn
      simp [initDittosAux, hexn]
    | succ m =>
      have h0 : env.dittoCtor i = PyResult.ok () := by
        have := hok 0 (Nat.succ_pos m)
        simpa using this
      simp only [initDittosAux, h0]
      apply ih (i + 1) m _ e (by omega)
      · have harith : i + 1 + m = i + (m + 1) := by omega
        rw [harith]
        exact hexn
      · intro m2 hm2
        have harith : i + 1 + m2 = i + (m2 + 1) := by omega
        rw [harith]
        exact hok (m2 + 1) (by omega)

theorem initShared_ok (g : ConcurrentVideoGenerator) (env : InitEnv)
    (h : (initShared g env).2 = none) :
    (initShared g env).1.tts_model = some g.nextToken ∧
    (initShared g env).1.asr_model = some (g.nextToken + 1) ∧
    (initShared g env).1.nextToken = g.nextToken + 2 ∧
    (initShared g env).1.ditto_models = g.ditto_models ∧
    (initShared g env).1.num_workers = g.num_workers := by
  unfold initShared at h ⊢
  cases h1 : env.ttsCtor with
  | exn e => simp [h1] at h
  | ok u =>
    cases h2 : env.ttsInit with
    | exn e => simp [h1, h2] at h
    | ok u2 =>
      cases h3 : env.asrCtor with
      | exn e => simp [h1, h2, h3] at h
      | ok u3 =>
        cases h4 : env.asrInit with
        | exn e => simp [h1, h2, h3, h4] at h
        | ok u4 =>
          refine ⟨rfl, rfl, ?_, rfl, rfl⟩
          show g.nextToken + 1 + 1 = g.nextToken + 2
          omega

theorem initShared_fail (g : ConcurrentVideoGenerator) (env : InitEnv) (e : String) :
    (env.ttsCtor = PyResult.exn e → (initShared g env).2 = some e) ∧
    (env.ttsCtor = PyResult.ok () → env.ttsInit = PyResult.exn e →
      (initShared g env).2 = some e) ∧
    (env.ttsCtor = PyResult.ok () → env.ttsInit = PyResult.ok () →
      env.asrCtor = PyResult.exn e → (initShared g env).2 = some e) ∧
    (env.ttsCtor = PyResult.ok () → env.ttsInit = PyResult.ok () →
      env.asrCtor = PyResult.ok () → env.asrInit = PyResult.exn e →
      (initShared g env).2 = some e) := by
  refine ⟨?_, ?_, ?_, ?_⟩
  · intro h1; simp [initShared, h1]
  · intro h1 h2; simp [initShared, h1, h2]
  · intro h1 h2 h3; simp [initShared, h1, h2, h3]
  · intro h1 h2 h3 h4; simp [initShared, h1, h2, h3, h4]

theorem initModels_ok (g : ConcurrentVideoGenerator) (env : InitEnv)
    (h : (initModels g env).2 = none) :
    (initModels g env).1.ditto_models.length = g.ditto_models.length + g.num_workers ∧
    (initModels g env).1.tts_model = some g.nextToken ∧
    (initModels g env).1.nextToken = g.nextToken + 2 + g.num_workers ∧
    (initModels g env).1.num_workers = g.num_workers := by
  unfold initModels at h ⊢
  cases hsh : (initShared g env).2 with
  | some e => simp [hsh] at h
  | none =>
    simp only [hsh] at h ⊢
    obtain ⟨ht, ha, hn, hd, hw⟩ := initShared_ok g env hsh
    obtain ⟨d1, d2, d3, d4, d5⟩ := initDittosAux_ok env
      (initShared g env).1.num_workers 0 (initShared g env).1 h
    refine ⟨?_, ?_, ?_, ?_⟩
    · rw [d1, hd, hw]
    · rw [d4, ht]
    · rw [d2, hn, hw]
    · rw [d3, hw]

/-- Submit a list of jobs in order, collecting the returned booleans. -/
def submitAll : ConcurrentVideoGenerator → List VideoJob →
    ConcurrentVideoGenerator × List Bool
  | g, [] => (g, [])
  | g, j :: js =>
    ((submitAll (submit_job g j).1 js).1,
      (submit_job g j).2 :: (submitAll (submit_job g j).1 js).2)

theorem submitAll_backpressure (n : Nat) :
    ∀ (js : List VideoJob) (g : ConcurrentVideoGenerator),
      g.max_queue_size = (n : Int) → 0 < n →
      g.job_queue.length ≤ n →
      g.job_queue.length + js.length = n + 1 →
      (submitAll g js).2 =
        List.replicate (n - g.job_queue.length) true ++ [false] := by
  intro js
  induction js with
  | nil =>
    intro g h1 h2 h3 h4
    simp at h4
    omega
  | cons j js ih =>
    intro g h1 h2 h3 h4
    by_cases hlen : g.job_queue.length < n
    · have hnotfull : queueFull g = false := by
        unfold queueFull
        rw [h1]
        simp
        intro
        omega
      have hsub1 : (submit_job g j).1 =
          { g with job_queue := g.job_queue ++ [QItem.job j]
                   log := Event.accepted j :: g.log } := by
        simp [submit_job, hnotfull]
      have hsub2 : (submit_job g j).2 = true := by
        simp [submit_job, hnotfull]
      have hrec := ih (submit_job g j).1
        (by rw [hsub1]; exact h1)
        h2
        (by rw [hsub1]; simp; omega)
        (by rw [hsub1]; simp at h4 ⊢; omega)
      have hlen2 : (submit_job g j).1.job_queue.length = g.job_queue.length + 1 := by
        rw [hsub1]; simp
      rw [show submitAll g (j :: js) =
          ((submitAll (submit_job g j).1 js).1,
            (submit_job g j).2 :: (submitAll (submit_job g j).1 js).2) from rfl]
      simp only [hsub2]
      rw [hrec, hlen2]
      have harith : n - g.job_queue.length = (n - (g.job_queue.length + 1)) + 1 := by
        omega
      rw [harith, List.replicate_succ]
      simp
    · have heq : g.job_queue.length = n := by omega
      have hfull : queueFull g = true := by
        unfold queueFull
        rw [h1]
        simp
        omega
      have hjs : js = [] := by
        have : js.length = 0 := by simp at h4; omega
        exact List.length_eq_zero.mp this
      subst hjs
      have hsub1 : (submit_job g j).1 = g := by simp [submit_job, hfull]
      have hsub2 : (submit_job g j).2 = false := by simp [submit_job, hfull]
      rw [show submitAll g [j] =
          ((submitAll (submit_job g j).1 []).1,
            (submit_job g j).2 :: (submitAll (submit_job g j).1 []).2) from rfl]
      simp [submitAll, hsub2, heq]

theorem step_poolA_poolB : Step poolA poolB := Step.submit poolA jobA

theorem step_poolB_poolC : Step poolB poolC := Step.wtop poolB 0 (by decide)

theorem step_poolC_poolD : Step poolC poolD := Step.wdeq poolC 0 (by decide)

theorem step_poolD_poolE : Step poolD poolE := Step.wpub poolD 0 jobA procOK (by decide)

theorem reach_poolA_poolD : Reachable poolA poolD :=
  Relation.ReflTransGen.tail
    (Relation.ReflTransGen.tail
      (Relation.ReflTransGen.tail Relation.ReflTransGen.refl step_poolA_poolB)
      step_poolB_poolC)
    step_poolC_poolD

theorem reach_poolA_poolE : Reachable poolA poolE :=
  Relation.ReflTransGen.tail reach_poolA_poolD step_poolD_poolE

/-- C3: submit_job is a non-blocking enqueue attempt: with a positive queue
    capacity, a submission finding the queue below capacity appends the job
    at the tail and returns true; a submission finding the queue at capacity
    returns false (not an error) and leaves the state unchanged; and
    submitting capacity + 1 jobs into an empty queue with no dequeue in
    progress yields capacity acceptances followed by a rejection of the
    final job. -/
theorem C3_submit_backpressure (g : ConcurrentVideoGenerator) (j : VideoJob)
    (n : Nat) (hcap : g.max_queue_size = (n : Int)) (hpos : 0 < n) :
    (g.job_queue.length < n →
      submit_job g j =
        ({ g with job_queue := g.job_queue ++ [QItem.job j]
                  log := Event.accepted j :: g.log }, true)) ∧
    (n ≤ g.job_queue.length → submit_job g j = (g, false)) ∧
    (∀ js : List VideoJob, g.job_queue = [] → js.length = n + 1 →
      (submitAll g js).2 = List.replicate n true ++ [false]) := by
  refine ⟨?_, ?_, ?_⟩
  · intro hlt
    have hnf : queueFull g = false := by
      unfold queueFull
      rw [hcap]
      simp
      intro
      omega
    simp [submit_job, hnf]
  · intro hge
    have hf : queueFull g = true := by
      unfold queueFull
      rw [hcap]
      simp
      omega
    simp [submit_job, hf]
  · intro js hq hlen
    have hbp := submitAll_backpressure n js g hcap hpos
      (by rw [hq]; simp) (by rw [hq]; simp [hlen])
    rw [hq] at hbp
    simpa using hbp

/-- C3 witness: a capacity-2 pool accepts two jobs and rejects the third. -/
theorem C3_submit_backpressure_witness :
    (mkGenerator 2 "cuda" 2 none).max_queue_size = ((2 : Nat) : Int) ∧ 0 < 2 ∧
    (submitAll (mkGenerator 2 "cuda" 2 none) [jobA, jobB, jobC]).2 =
      [true, true, false] := by
  refine ⟨by decide, by decide, ?_⟩
  have h := (C3_submit_backpressure (mkGenerator 2 "cuda" 2 none) jobA 2
    (by decide) (by decide)).2.2 [jobA, jobB, jobC] rfl rfl
  simpa using h

theorem cleanupFate_spec (g : ConcurrentVideoGenerator) (w : Nat) (env : ProcessEnv) :
    (∀ e, cleanupFate g w env = CleanupFate.removeFailed e →
      stageRaised g w env = some e) ∧
    (cleanupFate g w env = CleanupFate.removed → stageRaised g w env = none) ∧
    (∀ e, env.ttsResult = PyResult.exn e →
      cleanupFate g w env = CleanupFate.notAttempted) ∧
    (∀ e, env.dittoResult = PyResult.exn e →
      cleanupFate g w env = CleanupFate.notAttempted) := by
  unfold cleanupFate stageRaised
  cases htts : env.ttsResult with
  | exn e0 =>
    refine ⟨?_, ?_, ?_, ?_⟩
    · intro e h; exact absurd h (by simp)
    · intro h; exact absurd h (by simp)
    · intro e h; rfl
    · intro e h; rfl
  | ok a =>
    obtain ⟨ap, tms, aus⟩ := a
    cases hd : g.ditto_models[w]? with
    | none =>
      refine ⟨?_, ?_, ?_, ?_⟩
      · intro e h; exact absurd h (by simp)
      · intro h; exact absurd h (by simp)
      · intro e h; exact absurd h (by simp)
      · intro e h; rfl
    | some d =>
      cases hdr : env.dittoResult with
      | exn e0 =>
        refine ⟨?_, ?_, ?_, ?_⟩
        · intro e h; exact absurd h (by simp)
        · intro h; exact absurd h (by simp)
        · intro e h; exact absurd h (by simp)
        · intro e h; rfl
      | ok b =>
        obtain ⟨vp, gm⟩ := b
        refine ⟨?_, ?_, ?_, ?_⟩
        · intro e h
          by_cases hae : env.audioExists
          · cases hrr : env.removeResult with
            | exn e2 =>
              simp [hae, hrr] at h ⊢
              exact h
            | ok u => simp [hae, hrr] at h
          · simp [hae] at h
        · intro h
          by_cases hae : env.audioExists
          · cases hrr : env.removeResult with
            | exn e2 => simp [hae, hrr] at h
            | ok u => simp [hae, hrr]
          · simp [hae]
        · intro e h; exact absurd h (by simp)
        · intro e h; exact absurd h (by simp)

/-- C9 counterexample: with both pipeline stages succeeding and os.remove
    raising, the deletion failure is escalated by the shared exception
    handler into a failed JobResult, contradicting the claim that it is
    logged but not escalated; and when the animation stage fails, the
    deletion is never attempted, so the audio artifact outlives the failed
    job, contradicting the claim that the artifact does not outlive the
    job. -/
theorem C9_cleanup_cex :
    cleanupFate poolD 0 procRemoveFail = CleanupFate.removeFailed "Permission denied" ∧
    (process_job poolD jobA 0 procRemoveFail).success = false ∧
    (process_job poolD jobA 0 procRemoveFail).error = some "Permission denied" ∧
    cleanupFate poolD 0 procDittoFail = CleanupFate.notAttempted ∧
    (process_job poolD jobA 0 procDittoFail).success = false := by
  exact ⟨by decide, by decide, by decide, by decide, by decide⟩

/-- C9 amended: the worker attempts deletion of the intermediate audio
    artifact only on the success path, after the animation stage; a failure
    of that deletion is caught by the per-job exception handler and turns
    the JobResult into a failure carrying the deletion error (it is not a
    best-effort cleanup); and when the synthesis or animation stage raises,
    the deletion is not attempted at all, so on failed jobs the artifact
    outlives the job. -/
theorem C9_cleanup_escalates (g : ConcurrentVideoGenerator) (j : VideoJob)
    (w : Nat) (env : ProcessEnv) :
    (∀ e, cleanupFate g w env = CleanupFate.removeFailed e →
      process_job g j w env = failResult j w env e) ∧
    (cleanupFate g w env = CleanupFate.removed →
      (process_job g j w env).success = true) ∧
    (∀ e, env.ttsResult = PyResult.exn e →
      cleanupFate g w env = CleanupFate.notAttempted) ∧
    (∀ e, env.dittoResult = PyResult.exn e →
      cleanupFate g w env = CleanupFate.notAttempted) := by
  obtain ⟨h1, h2, h3, h4⟩ := cleanupFate_spec g w env
  refine ⟨?_, ?_, h3, h4⟩
  · intro e he
    rcases process_job_cases g j w env with ⟨e2, he2, hpe⟩ | ⟨hn, vp, hpe⟩
    · have h5 := h1 e he
      rw [he2] at h5
      injection h5 with h6
      rw [hpe, h6]
    · rw [h1 e he] at hn
      exact Option.noConfusion hn
  · intro he
    rcases process_job_cases g j w env with ⟨e2, he2, hpe⟩ | ⟨hn, vp, hpe⟩
    · rw [h2 he] at he2
      exact Option.noConfusion he2
    · rw [hpe]

/-- C9 witness: concrete runs exercising the escalated-deletion path and
    the stage-failure path with no cleanup. -/
theorem C9_cleanup_escalates_witness :
    cleanupFate poolD 0 procRemoveFail = CleanupFate.removeFailed "Permission denied" ∧
    process_job poolD jobA 0 procRemoveFail =
      failResult jobA 0 procRemoveFail "Permission denied" ∧
    procDittoFail.dittoResult = PyResult.exn "CUDA error: device-side assert" ∧
    cleanupFate poolD 0 procDittoFail = CleanupFate.notAttempted := by
  refine ⟨by decide, ?_, by decide, ?_⟩
  · exact (C9_cleanup_escalates poolD jobA 0 procRemoveFail).1 "Permission denied"
      (by decide)
  · exact (C9_cleanup_escalates poolD jobA 0 procDittoFail).2.2.2
      "CUDA error: device-side assert" (by decide)

/-- C2: during the worker loop of a started pool, a worker executing a job
    holds an index below num_workers, and _process_job echoes the job id and
    that index in its JobResult; output_path is populated iff success and
    error is populated iff failure; with a monotone wall clock the duration
    is nonnegative; any exception raised by the synthesis stage, the
    per-worker handle lookup, the animation stage or the cleanup yields the
    failed JobResult carrying str(e) as its error; and after publishing the
    result, failed or not, the worker returns to the top of its loop and,
    while the pool is running, to the dequeue. -/
theorem C2_pipeline_failure (s0 s : ConcurrentVideoGenerator) (w : Nat)
    (j : VideoJob) (env : ProcessEnv) (hps : PristineStart s0)
    (hr : Reachable s0 s) (hrun : s.workers[w]? = some (WPhase.run j)) :
    w < s.num_workers ∧
    (process_job s j w env).job_id = j.job_id ∧
    (process_job s j w env).worker_id = w ∧
    (process_job s j w env).output_path.isSome = (process_job s j w env).success ∧
    (process_job s j w env).error.isSome = !(process_job s j w env).success ∧
    (env.startTime ≤ env.endTime → 0 ≤ (process_job s j w env).duration) ∧
    (∀ e, stageRaised s w env = some e →
      process_job s j w env =
        { job_id := j.job_id
          success := false
          output_path := none
          duration := env.endTime - env.startTime
          error := some e
          worker_id := w }) ∧
    (worker_publish s w j env).workers[w]? = some WPhase.top ∧
    (s.running = true →
      (worker_top (worker_publish s w j env) w).workers[w]? = some WPhase.dequeue) := by
  have hinv := reachable_execInv s0 s (pristine_execInv s0 hps) hr
  obtain ⟨_, hwl, _, _, _, _, _, _⟩ := hinv
  have hwlt : w < s.workers.length := getElem?_some_lt hrun
  refine ⟨by rw [← hwl]; exact hwlt,
    process_job_job_id s j w env,
    process_job_worker_id s j w env,
    process_job_output_iff s j w env,
    process_job_error_iff s j w env, ?_, ?_, ?_, ?_⟩
  · intro hmono
    rw [process_job_duration]
    exact sub_nonneg.mpr hmono
  · intro e hse
    rcases process_job_cases s j w env with ⟨e2, he2, hpe⟩ | ⟨hn, vp, hpe⟩
    · rw [he2] at hse
      injection hse with h5
      rw [← h5]
      exact hpe
    · rw [hse] at hn
      exact Option.noConfusion hn
  · exact getElem?_set_self s.workers w WPhase.top hwlt
  · intro hrn
    have hpr : (worker_publish s w j env).running = true := hrn
    have he : worker_top (worker_publish s w j env) w =
        setPhase (worker_publish s w j env) w WPhase.dequeue := by
      simp [worker_top, hpr]
    rw [he]
    refine getElem?_set_self _ w WPhase.dequeue ?_
    rw [show (worker_publish s w j env).workers = s.workers.set w WPhase.top from rfl,
      List.length_set]
    exact hwlt

/-- C2 witness: worker 0 of a started single-worker pool runs jobA under an
    oracle whose os.remove raises; the published result is the failed
    JobResult and the worker is back at the dequeue. -/
theorem C2_pipeline_failure_witness :
    PristineStart poolA ∧
    poolD.workers[0]? = some (WPhase.run jobA) ∧
    stageRaised poolD 0 procRemoveFail = some "Permission denied" ∧
    process_job poolD jobA 0 procRemoveFail =
      { job_id := jobA.job_id
        success := false
        output_path := none
        duration := procRemoveFail.endTime - procRemoveFail.startTime
        error := some "Permission denied"
        worker_id := 0 } ∧
    0 ≤ (process_job poolD jobA 0 procRemoveFail).duration ∧
    (worker_top (worker_publish poolD 0 jobA procRemoveFail) 0).workers[0]? =
      some WPhase.dequeue := by
  have h := C2_pipeline_failure poolA poolD 0 jobA procRemoveFail (by decide)
    reach_poolA_poolD (by decide)
  refine ⟨by decide, by decide, by decide, ?_, ?_, ?_⟩
  · exact h.2.2.2.2.2.2.1 "Permission denied" (by decide)
  · exact h.2.2.2.2.2.1 (by norm_num [procRemoveFail])
  · exact h.2.2.2.2.2.2.2.2 (by decide)

/-- C1: in every interleaved execution of a started pool, the result store
    keys stay pairwise distinct (at most one JobResult per jobId at any
    time), a dict write for an id overwrites any earlier value at that id,
    and every job accepted by submit_job under unique ids has at most one
    result-store write ever, with exactly one write exactly when the job has
    left the queue and is no longer held by any worker (each accepted job is
    dequeued and executed by exactly one worker exactly once; a job still
    queued or in flight has its single write still pending). -/
theorem C1_exactly_once (s0 s : ConcurrentVideoGenerator) (hps : PristineStart s0)
    (hr : Reachable s0 s) :
    (s.results.map Prod.fst).Nodup ∧
    (∀ m k v, dictLookup (dictInsert m k v) k = some v) ∧
    (∀ j, Event.accepted j ∈ s.log → acceptedCount s.log j.job_id = 1 →
      wroteCount s.log j.job_id ≤ 1 ∧
      (wroteCount s.log j.job_id = 1 ↔
        queueCount s j.job_id = 0 ∧ runCount s j.job_id = 0)) := by
  have hinv := reachable_execInv s0 s (pristine_execInv s0 hps) hr
  obtain ⟨hnd, _, _, _, _, _, _, hcons⟩ := hinv
  refine ⟨hnd, fun m k v => dictLookup_insert_self m k v, ?_⟩
  intro j _hmem hone
  have hcj := hcons j.job_id
  rw [hone] at hcj
  exact ⟨by omega, by omega⟩

/-- C1 witness: after jobA is accepted, dequeued and published on a
    single-worker pool, its id has exactly one write and is neither queued
    nor in flight. -/
theorem C1_exactly_once_witness :
    PristineStart poolA ∧
    Event.accepted jobA ∈ poolE.log ∧
    acceptedCount poolE.log "job-a" = 1 ∧
    wroteCount poolE.log "job-a" ≤ 1 ∧
    (wroteCount poolE.log "job-a" = 1 ↔
      queueCount poolE "job-a" = 0 ∧ runCount poolE "job-a" = 0) := by
  have h := C1_exactly_once poolA poolE (by decide) reach_poolA_poolE
  have h3 := h.2.2 jobA (by decide) (by decide)
  exact ⟨by decide, by decide, by decide, h3.1, h3.2⟩

/-- C7: in every interleaved execution of a started pool, get_stats returns
    a snapshot in which jobs_completed counts exactly the successful
    published results, jobs_failed the failed ones, queue_size is the
    current queue depth, total_time is the sum of all published durations,
    and the per-worker busy times sum to that same total. -/
theorem C7_stats_consistency (s0 s : ConcurrentVideoGenerator)
    (hps : PristineStart s0) (hr : Reachable s0 s) :
    (get_stats s).jobs_completed = successCount s.log ∧
    (get_stats s).jobs_failed = failCount s.log ∧
    (get_stats s).queue_size = s.job_queue.length ∧
    (get_stats s).total_time = durSum s.log ∧
    (get_stats s).worker_times.sum = durSum s.log ∧
    (get_stats s).worker_times.sum = (get_stats s).total_time := by
  have hinv := reachable_execInv s0 s (pristine_execInv s0 hps) hr
  obtain ⟨_, _, _, hc, hf, htt, hws, _⟩ := hinv
  refine ⟨hc, hf, rfl, htt, hws, ?_⟩
  show s.stats.worker_times.sum = s.stats.total_time
  rw [hws, htt]

/-- C7 witness: the stats of the single-worker pool after one successful
    job. -/
theorem C7_stats_consistency_witness :
    PristineStart poolA ∧
    (get_stats poolE).jobs_completed = successCount poolE.log ∧
    successCount poolE.log = 1 ∧
    (get_stats poolE).jobs_failed = 0 ∧
    (get_stats poolE).queue_size = 0 ∧
    (get_stats poolE).worker_times.sum = (get_stats poolE).total_time := by
  have h := C7_stats_consistency poolA poolE (by decide) reach_poolA_poolE
  refine ⟨by decide, h.1, by decide, ?_, ?_, h.2.2.2.2.2⟩
  · rw [h.2.1]; decide
  · rw [h.2.2.1]; decide

theorem initModels_shared_fail (g : ConcurrentVideoGenerator) (env : InitEnv)
    (e : String) (h : (initShared g env).2 = some e) :
    (initModels g env).2 = some e := by
  unfold initModels
  cases hsh : (initShared g env).2 with
  | some e2 =>
    rw [hsh] at h
    injection h with h5
    subst h5
    simp only [hsh]
  | none => rw [hsh] at h; exact Option.noConfusion h

/-- C4 counterexample: calling initialize() twice on a two-worker pool is
    not a no-op: both calls return normally, but the second call leaves four
    per-worker animation handles instead of two and assigns a fresh shared
    synthesis handle, so the pool is not in the same state as after the
    first call. -/
theorem C4_not_idempotent_cex :
    (initModels (mkGenerator 2 "cuda" 100 none) envInitOK).2 = none ∧
    (initModels (initModels (mkGenerator 2 "cuda" 100 none) envInitOK).1
      envInitOK).2 = none ∧
    (initModels (mkGenerator 2 "cuda" 100 none) envInitOK).1.ditto_models.length = 2 ∧
    (initModels (initModels (mkGenerator 2 "cuda" 100 none) envInitOK).1
      envInitOK).1.ditto_models.length = 4 ∧
    (initModels (initModels (mkGenerator 2 "cuda" 100 none) envInitOK).1
        envInitOK).1.tts_model ≠
      (initModels (mkGenerator 2 "cuda" 100 none) envInitOK).1.tts_model := by
  exact ⟨by decide, by decide, by decide, by decide, by decide⟩

/-- C4 amended: initialize() is not idempotent: whenever a second call also
    returns normally, it has appended another num_workers animation handles
    (leaving ditto_models with twice num_workers more entries than before
    the first call) and has rebuilt the shared synthesis handle, replacing
    it with a fresh instance distinct from the one the first call
    installed. -/
theorem C4_second_call_rebuilds (g : ConcurrentVideoGenerator)
    (env env2 : InitEnv) (h1 : (initModels g env).2 = none)
    (h2 : (initModels (initModels g env).1 env2).2 = none) :
    (initModels (initModels g env).1 env2).1.ditto_models.length =
      g.ditto_models.length + 2 * g.num_workers ∧
    (initModels (initModels g env).1 env2).1.tts_model ≠
      (initModels g env).1.tts_model := by
  obtain ⟨a1, a2, a3, a4⟩ := initModels_ok g env h1
  obtain ⟨b1, b2, b3, b4⟩ := initModels_ok (initModels g env).1 env2 h2
  constructor
  · rw [b1, a1, a4]
    ring
  · rw [b2, a2]
    intro hcontra
    injection hcontra with h5
    rw [a3] at h5
    omega

/-- C4 witness: the amended statement evaluated on a two-worker pool with
    all-normal initialization runs. -/
theorem C4_second_call_rebuilds_witness :
    (initModels (mkGenerator 2 "cuda" 100 none) envInitOK).2 = none ∧
    (initModels (initModels (mkGenerator 2 "cuda" 100 none) envInitOK).1
      envInitOK).2 = none ∧
    (initModels (initModels (mkGenerator 2 "cuda" 100 none) envInitOK).1
        envInitOK).1.ditto_models.length =
      (mkGenerator 2 "cuda" 100 none).ditto_models.length +
        2 * (mkGenerator 2 "cuda" 100 none).num_workers ∧
    (initModels (initModels (mkGenerator 2 "cuda" 100 none) envInitOK).1
        envInitOK).1.tts_model ≠
      (initModels (mkGenerator 2 "cuda" 100 none) envInitOK).1.tts_model := by
  have h := C4_second_call_rebuilds (mkGenerator 2 "cuda" 100 none)
    envInitOK envInitOK (by decide) (by decide)
  exact ⟨by decide, by decide, h.1, h.2⟩

/-- C8 counterexample: when the shared ASR initialization raises, the error
    message is returned to the caller, but the pool is left half-initialized
    (no animation handles) and start() on it proceeds exactly as after a
    successful initialization: it sets running and launches the same
    num_workers workers. -/
theorem C8_start_after_fail_cex :
    (initModels (mkGenerator 2 "cuda" 100 none) envInitAsrFail).2 =
      some "CUDA out of memory" ∧
    (initModels (mkGenerator 2 "cuda" 100 none) envInitAsrFail).1.ditto_models = [] ∧
    (start (initModels (mkGenerator 2 "cuda" 100 none) envInitAsrFail).1).running =
      true ∧
    (start (initModels (mkGenerator 2 "cuda" 100 none) envInitAsrFail).1).workers =
      (start (initModels (mkGenerator 2 "cuda" 100 none) envInitOK).1).workers := by
  exact ⟨by decide, by decide, by decide, by decide⟩

/-- C8 amended: a failure while constructing any shared handle or any
    per-worker animation handle during initialize() propagates the raised
    message to the caller; however the pool is left partially initialized
    and start() performs no initialization check: on a non-running pool it
    always sets running and launches num_workers workers, so start() after
    a failed initialize() behaves as if initialization had succeeded, and
    the missing per-worker handle surfaces only later as a per-job failure
    with the IndexError message. -/
theorem C8_init_fail_propagates (g : ConcurrentVideoGenerator) (env : InitEnv)
    (e : String) :
    (env.ttsCtor = PyResult.exn e → (initModels g env).2 = some e) ∧
    (env.ttsCtor = PyResult.ok () → env.ttsInit = PyResult.exn e →
      (initModels g env).2 = some e) ∧
    (env.ttsCtor = PyResult.ok () → env.ttsInit = PyResult.ok () →
      env.asrCtor = PyResult.exn e → (initModels g env).2 = some e) ∧
    (env.ttsCtor = PyResult.ok () → env.ttsInit = PyResult.ok () →
      env.asrCtor = PyResult.ok () → env.asrInit = PyResult.exn e →
      (initModels g env).2 = some e) ∧
    (∀ jj, (initShared g env).2 = none → jj < g.num_workers →
      env.dittoCtor jj = PyResult.exn e →
      (∀ m, m < jj → env.dittoCtor m = PyResult.ok ()) →
      (initModels g env).2 = some e) ∧
    (g.running = false → (start g).running = true ∧
      (start g).workers = List.replicate g.num_workers WPhase.top) ∧
    (∀ (j : VideoJob) (w : Nat) (env2 : ProcessEnv)
      (a : String × Rat × Rat), g.ditto_models = [] →
      env2.ttsResult = PyResult.ok a →
      (process_job g j w env2).success = false ∧
      (process_job g j w env2).error = some "list index out of range") := by
  obtain ⟨f1, f2, f3, f4⟩ := initShared_fail g env e
  refine ⟨?_, ?_, ?_, ?_, ?_, ?_, ?_⟩
  · intro h1; exact initModels_shared_fail g env e (f1 h1)
  · intro h1 h2; exact initModels_shared_fail g env e (f2 h1 h2)
  · intro h1 h2 h3; exact initModels_shared_fail g env e (f3 h1 h2 h3)
  · intro h1 h2 h3 h4; exact initModels_shared_fail g env e (f4 h1 h2 h3 h4)
  · intro jj hsh hjlt hexn hok
    unfold initModels
    cases hsh2 : (initShared g env).2 with
    | some e2 => rw [hsh2] at hsh; exact Option.noConfusion hsh
    | none =>
      simp only [hsh2]
      show (initDittosAux env (initShared g env).1.num_workers 0
        (initShared g env).1).2 = some e
      obtain ⟨_, _, _, _, hw⟩ := initShared_ok g env hsh2
      refine initDittosAux_fail env (initShared g env).1.num_workers 0 jj _ e
        (by rw [hw]; exact hjlt) (by rw [Nat.zero_add]; exact hexn) ?_
      intro m hm
      rw [Nat.zero_add]
      exact hok m hm
  · intro hnr
    simp [start, hnr]
  · intro j w env2 a hd htts
    obtain ⟨p1, p2, p3⟩ := a
    constructor <;> simp [process_job, htts, hd, failResult]

/-- C8 witness: the propagation and the unchecked start evaluated on a
    two-worker pool whose ASR initialization raises. -/
theorem C8_init_fail_propagates_witness :
    envInitAsrFail.asrInit = PyResult.exn "CUDA out of memory" ∧
    (initModels (mkGenerator 2 "cuda" 100 none) envInitAsrFail).2 =
      some "CUDA out of memory" ∧
    (start (initModels (mkGenerator 2 "cuda" 100 none) envInitAsrFail).1).running =
      true ∧
    (process_job (initModels (mkGenerator 2 "cuda" 100 none) envInitAsrFail).1
      jobA 0 procOK).error = some "list index out of range" := by
  have h := C8_init_fail_propagates (mkGenerator 2 "cuda" 100 none) envInitAsrFail
    "CUDA out of memory"
  refine ⟨by decide, ?_, ?_, ?_⟩
  · exact h.2.2.2.1 (by decide) (by decide) (by decide) (by decide)
  · exact (h.2.2.2.2.2.1 (by decide)).1
  · exact (h.2.2.2.2.2.2 jobA 0 procOK ("/tmp/audio_job-a.wav", 100, 2)
      (by decide) (by decide)).2

theorem pollExit_eq_some (snap : Option JobResult) (elapsed : Rat)
    (timeout : Option Rat) (out : Option JobResult)
    (h : pollExit snap elapsed timeout = some out) :
    (∃ r, snap = some r ∧ out = some r) ∨
    (snap = none ∧ out = none ∧ ∃ t, timeout = some t ∧ t ≠ 0 ∧ elapsed > t) := by
  cases snap with
  | some r =>
    simp only [pollExit] at h
    injection h with h2
    exact Or.inl ⟨r, rfl, h2.symm⟩
  | none =>
    cases timeout with
    | none => simp only [pollExit] at h; exact Option.noConfusion h
    | some t =>
      by_cases hc : t ≠ 0 ∧ elapsed > t
      · simp only [pollExit] at h
        rw [if_pos hc] at h
        injection h with h2
        exact Or.inr ⟨rfl, h2.symm, t, rfl, hc.1, hc.2⟩
      · simp only [pollExit] at h
        rw [if_neg hc] at h
        exact Option.noConfusion h

theorem pollExit_eq_none (snap : Option JobResult) (elapsed : Rat)
    (timeout : Option Rat) (h : pollExit snap elapsed timeout = none) :
    snap = none ∧ ∀ t, timeout = some t → ¬(t ≠ 0 ∧ elapsed > t) := by
  cases snap with
  | some r => simp only [pollExit] at h; exact Option.noConfusion h
  | none =>
    refine ⟨rfl, ?_⟩
    intro t ht hc
    subst ht
    simp only [pollExit] at h
    rw [if_pos hc] at h
    exact Option.noConfusion h

/-- C5: the polling loop of get_result returns the stored JobResult at the
    first iteration that finds one; it returns absent only when the store
    held nothing at every poll up to and including the deciding one and a
    truthy timeout had strictly elapsed; with timeout None it never returns
    absent (it blocks until a result appears); and for a jobId that never
    receives a result, any positive timeout together with an eventually
    advancing clock makes it return absent at some finite poll rather than
    raising or waiting unboundedly. -/
theorem C5_get_result_semantics (snaps : Nat → Option JobResult)
    (times : Nat → Rat) (startT : Rat) (timeout : Option Rat) :
    (∀ n r, get_result_returns snaps times startT timeout n (some r) →
      snaps n = some r ∧ ∀ m, m < n → snaps m = none) ∧
    (∀ n, get_result_returns snaps times startT timeout n none →
      (∀ m, m ≤ n → snaps m = none) ∧
      ∃ t, timeout = some t ∧ t ≠ 0 ∧ times n - startT > t) ∧
    (timeout = none →
      ∀ n, ¬ get_result_returns snaps times startT timeout n none) ∧
    (∀ t, timeout = some t → 0 < t → (∀ n, snaps n = none) →
      (∃ n, times n - startT > t) →
      ∃ n, get_result_returns snaps times startT timeout n none) := by
  refine ⟨?_, ?_, ?_, ?_⟩
  · intro n r h
    obtain ⟨hex, hmin⟩ := h
    rcases pollExit_eq_some _ _ _ _ hex with ⟨r2, hsn, hout⟩ | ⟨_, hout, _⟩
    · injection hout with h2
      subst h2
      refine ⟨hsn, ?_⟩
      intro m hm
      exact (pollExit_eq_none _ _ _ (hmin m hm)).1
    · exact Option.noConfusion hout
  · intro n h
    obtain ⟨hex, hmin⟩ := h
    rcases pollExit_eq_some _ _ _ _ hex with ⟨r2, hsn, hout⟩ | ⟨hsn, _, t, ht, ht0, hgt⟩
    · exact Option.noConfusion hout
    · refine ⟨?_, t, ht, ht0, hgt⟩
      intro m hm
      rcases Nat.lt_or_ge m n with hlt | hge
      · exact (pollExit_eq_none _ _ _ (hmin m hlt)).1
      · have : m = n := by omega
        rw [this]
        exact hsn
  · intro hn n h
    obtain ⟨hex, _⟩ := h
    rcases pollExit_eq_some _ _ _ _ hex with ⟨r2, _, hout⟩ | ⟨_, _, t, ht, _⟩
    · exact Option.noConfusion hout
    · rw [hn] at ht
      exact Option.noConfusion ht
  · intro t htm hpos hsnaps hex
    refine ⟨Nat.find hex, ?_, ?_⟩
    · show pollExit (snaps (Nat.find hex)) (times (Nat.find hex) - startT)
        timeout = some none
      rw [hsnaps, htm]
      simp only [pollExit]
      rw [if_pos ⟨ne_of_gt hpos, Nat.find_spec hex⟩]
    · intro m hm
      rw [hsnaps, htm]
      simp only [pollExit]
      rw [if_neg]
      intro hc
      exact Nat.find_min hex hm hc.2

/-- C5 witness: with an empty store, timeout 1 returns absent at a finite
    poll once the clock passes 1, while timeout None never returns
    absent. -/
theorem C5_get_result_semantics_witness :
    (0 : Rat) < 1 ∧
    (∃ n, get_result_returns (fun _ => none) (fun k => (k : Rat)) 0
      (some 1) n none) ∧
    (∀ n, ¬ get_result_returns (fun _ => none) (fun k => (k : Rat)) 0
      none n none) := by
  refine ⟨by norm_num, ?_, ?_⟩
  · exact (C5_get_result_semantics (fun _ => none) (fun k => (k : Rat)) 0
      (some 1)).2.2.2 1 rfl (by norm_num) (fun n => rfl)
      ⟨2, by norm_num⟩
  · exact (C5_get_result_semantics (fun _ => none) (fun k => (k : Rat)) 0
      none).2.2.1 rfl

/-- C10 counterexample: the claim that absent can only be returned for a
    positive timeout is false: a strictly negative timeout is truthy, its
    elapsed test passes at the very first poll, and get_result returns
    absent immediately, although the timeout is not positive. -/
theorem C10_negative_timeout_cex :
    get_result_returns (fun _ => none) (fun k => (k : Rat)) 0 (some (-1)) 0 none ∧
    ¬ (0 : Rat) < -1 := by
  constructor
  · constructor
    · show pollExit none (((0 : Nat) : Rat) - 0) (some (-1)) = some none
      simp only [pollExit]
      rw [if_pos
        (show (-1 : Rat) ≠ 0 ∧ ((0 : Nat) : Rat) - 0 > -1 from
          ⟨by norm_num, by norm_num⟩)]
    · intro m hm
      exact absurd hm (Nat.not_lt_zero m)
  · norm_num

/-- C10 amended: get_result with timeout exactly 0 behaves like timeout
    None because the elapsed-time test is guarded by the truthiness of the
    timeout: each poll of the loop is identical under the two values, a
    jobId with no stored result makes the loop run forever, and absent can
    only be returned when the timeout is a truthy (nonzero) number -- which
    includes negative timeouts, not only positive ones. -/
theorem C10_zero_timeout_blocks (snaps : Nat → Option JobResult)
    (times : Nat → Rat) (startT : Rat) :
    (∀ snap elapsed, pollExit snap elapsed (some 0) = pollExit snap elapsed none) ∧
    ((∀ n, snaps n = none) → get_result_diverges snaps times startT (some 0)) ∧
    (∀ tm n, get_result_returns snaps times startT tm n none →
      ∃ t, tm = some t ∧ t ≠ 0) := by
  refine ⟨?_, ?_, ?_⟩
  · intro snap elapsed
    cases snap with
    | some r => rfl
    | none => simp [pollExit]
  · intro hs n
    simp [pollExit, hs n]
  · intro tm n h
    obtain ⟨hex, _⟩ := h
    rcases pollExit_eq_some _ _ _ _ hex with ⟨r2, _, hout⟩ | ⟨_, _, t, ht, ht0, _⟩
    · exact Option.noConfusion hout
    · exact ⟨t, ht, ht0⟩

/-- C10 witness: with an empty store a zero timeout polls forever, and a
    returned absent forces a nonzero timeout (here the negative one). -/
theorem C10_zero_timeout_blocks_witness :
    get_result_diverges (fun _ => none) (fun k => (k : Rat)) 0 (some 0) ∧
    (∃ t, some (-1 : Rat) = some t ∧ t ≠ 0) := by
  constructor
  · exact (C10_zero_timeout_blocks (fun _ => none) (fun k => (k : Rat)) 0).2.1
      (fun n => rfl)
  · refine (C10_zero_timeout_blocks (fun _ => none) (fun k => (k : Rat)) 0).2.2
      (some (-1)) 0 ⟨?_, ?_⟩
    · show pollExit none (((0 : Nat) : Rat) - 0) (some (-1)) = some none
      simp only [pollExit]
      rw [if_pos
        (show (-1 : Rat) ≠ 0 ∧ ((0 : Nat) : Rat) - 0 > -1 from
          ⟨by norm_num, by norm_num⟩)]
    · intro m hm
      exact absurd hm (Nat.not_lt_zero m)

/-- C6 counterexample: a worker blocked inside the queue-get when stop() is
    called still receives a queued job, because the flag is only re-checked
    at the top of the loop: starting from a pool whose single worker sits in
    the dequeue wait while jobB is queued and not in flight, flipping the
    running flag and letting the worker proceed yields a full execution of
    jobB, so a result with its id is written after stop() -- the queued,
    undequeued job does produce a result. -/
theorem C6_stop_cex :
    QItem.job jobB ∈ poolRace.job_queue ∧
    (∀ w : Nat, poolRace.workers[w]? ≠ some (WPhase.run jobB)) ∧
    poolRace.running = true ∧
    Reachable (stopFlag poolRace)
      (worker_publish (worker_dequeue (stopFlag poolRace) 0) 0 jobB procOK) ∧
    wroteCount poolRace.log "job-b" = 0 ∧
    wroteCount
      (worker_publish (worker_dequeue (stopFlag poolRace) 0) 0 jobB procOK).log
      "job-b" = 1 := by
  refine ⟨by decide, ?_, by decide, ?_, by decide, by decide⟩
  · intro w
    cases w with
    | zero => decide
    | succ m =>
      have h0 : poolRace.workers[m + 1]? = none := by
        show ([WPhase.dequeue] : List WPhase)[m + 1]? = none
        simp
      rw [h0]
      exact fun hc => Option.noConfusion hc
  · exact Relation.ReflTransGen.tail
      (Relation.ReflTransGen.tail Relation.ReflTransGen.refl
        (Step.wdeq (stopFlag poolRace) 0 (by decide)))
      (Step.wpub (worker_dequeue (stopFlag poolRace) 0) 0 jobB procOK (by decide))

/-- C6 amended: when stop() flips the running flag on a running pool while
    no worker is blocked inside the queue-get (each worker is executing a
    job, between loop iterations, or already exited), then in every
    continuation: every result written after the flag flip belongs to a job
    that was in flight at that moment, so a queued-but-undequeued job whose
    id differs from every in-flight id never produces a result; and at any
    point where all workers have exited -- the condition under which the
    executor join inside stop() unblocks and stop() returns -- every job
    that was in flight at the flag flip has produced a result.  Without the
    no-worker-in-dequeue proviso the guarantee fails, as a blocked worker
    may execute one more queued job after stop(). -/
theorem C6_graceful_stop (s0 t : ConcurrentVideoGenerator)
    (hrun0 : s0.running = true)
    (hnodeq : ∀ (w : Nat) (p : WPhase),
      s0.workers[w]? = some p → p ≠ WPhase.dequeue)
    (hreach : Reachable (stopFlag s0) t) :
    Reachable s0 t ∧
    ∃ dlog, t.log = dlog ++ s0.log ∧
      (∀ e ∈ dlog, ∀ (w : Nat) (r : JobResult), e = Event.wrote w r →
        ∃ jj, s0.workers[w]? = some (WPhase.run jj) ∧ r.job_id = jj.job_id) ∧
      (∀ j2 : VideoJob, QItem.job j2 ∈ s0.job_queue →
        (∀ (w : Nat) (jj : VideoJob), s0.workers[w]? = some (WPhase.run jj) →
          jj.job_id ≠ j2.job_id) →
        ∀ e ∈ dlog, ∀ (w : Nat) (r : JobResult), e = Event.wrote w r →
          r.job_id ≠ j2.job_id) ∧
      (allExited t → ∀ (w : Nat) (jj : VideoJob),
        s0.workers[w]? = some (WPhase.run jj) →
        ∃ r, Event.wrote w r ∈ dlog ∧ r.job_id = jj.job_id) := by
  have hinv := stopInv_reachable s0 (stopFlag s0) t (stopInv_base s0 hnodeq) hreach
  obtain ⟨hrun, hnd, hrp, dlog, hlog, hdw, hdper⟩ := hinv
  refine ⟨Relation.ReflTransGen.head (Step.stop s0 hrun0) hreach,
    dlog, hlog, hdw, ?_, ?_⟩
  · intro j2 hq2 hdisj e he w r her
    obtain ⟨jj, hjj, hjid⟩ := hdw e he w r her
    intro hcontra
    exact hdisj w jj hjj (by rw [← hjid, hcontra])
  · intro hex w jj hw
    rcases hdper w jj hw with h1 | h2
    · exfalso
      have hlt := getElem?_some_lt h1
      have h3 := hex w hlt
      rw [h3] at h1
      injection h1 with h4
      exact WPhase.noConfusion h4
    · exact h2

/-- C6 witness: a single-worker pool with jobA in flight and jobB queued is
    stopped; the worker finishes jobA, publishes it, re-checks the flag and
    exits; the conclusion applies with all workers exited: jobA has a
    result, jobB has none. -/
theorem C6_graceful_stop_witness :
    poolStop.running = true ∧
    (∀ (w : Nat) (p : WPhase),
      poolStop.workers[w]? = some p → p ≠ WPhase.dequeue) ∧
    allExited (worker_top (worker_publish (stopFlag poolStop) 0 jobA procOK) 0) ∧
    (Reachable poolStop
      (worker_top (worker_publish (stopFlag poolStop) 0 jobA procOK) 0) ∧
    ∃ dlog,
      (worker_top (worker_publish (stopFlag poolStop) 0 jobA procOK) 0).log =
        dlog ++ poolStop.log ∧
      (∀ e ∈ dlog, ∀ (w : Nat) (r : JobResult), e = Event.wrote w r →
        ∃ jj, poolStop.workers[w]? = some (WPhase.run jj) ∧
          r.job_id = jj.job_id) ∧
      (∀ j2 : VideoJob, QItem.job j2 ∈ poolStop.job_queue →
        (∀ (w : Nat) (jj : VideoJob),
          poolStop.workers[w]? = some (WPhase.run jj) → jj.job_id ≠ j2.job_id) →
        ∀ e ∈ dlog, ∀ (w : Nat) (r : JobResult), e = Event.wrote w r →
          r.job_id ≠ j2.job_id) ∧
      (allExited (worker_top (worker_publish (stopFlag poolStop) 0 jobA procOK) 0) →
        ∀ (w : Nat) (jj : VideoJob),
        poolStop.workers[w]? = some (WPhase.run jj) →
        ∃ r, Event.wrote w r ∈ dlog ∧ r.job_id = jj.job_id)) := by
  have hnodeq : ∀ (w : Nat) (p : WPhase),
      poolStop.workers[w]? = some p → p ≠ WPhase.dequeue := by
    intro w p hp
    cases w with
    | zero =>
      have h0 : poolStop.workers[0]? = some (WPhase.run jobA) := by decide
      rw [h0] at hp
      injection hp with h2
      rw [← h2]
      exact fun hc => WPhase.noConfusion hc
    | succ m =>
      have h0 : poolStop.workers[m + 1]? = none := by
        show ([WPhase.run jobA] : List WPhase)[m + 1]? = none
        simp
      rw [h0] at hp
      exact Option.noConfusion hp
  have hchain : Reachable (stopFlag poolStop)
      (worker_top (worker_publish (stopFlag poolStop) 0 jobA procOK) 0) :=
    Relation.ReflTransGen.tail
      (Relation.ReflTransGen.tail Relation.ReflTransGen.refl
        (Step.wpub (stopFlag poolStop) 0 jobA procOK (by decide)))
      (Step.wtop (worker_publish (stopFlag poolStop) 0 jobA procOK) 0 (by decide))
  exact ⟨by decide, hnodeq, by decide,
    C6_graceful_stop poolStop _ (by decide) hnodeq hchain⟩

end RTAvatar
